import Mathlib

/-!
Verification of the guard-rails, rate-limiter, calculator and order-lookup
code of the AWS-STRANDS repository (files `Poc/mutiagnet.py`,
`Poc/order_mcp_server.py`, `MCP/calculatormcp.py`).

The Python code is shallowly embedded: `datetime` timestamps become integer
seconds, dictionaries keyed by user id become functions `String → List Int`,
raised exceptions become `Except`, and the handful of fixed regular
expressions used by the code are compiled by hand into executable matchers
over `List Char` that follow Python's backtracking semantics for those
particular patterns.
-/

namespace PyStr

/-- Python's regex class `\s` (for `str` patterns): the Unicode whitespace
characters.  Covers the ASCII whitespace, the C1 separators, NBSP and the
Unicode space separators. -/
def isPySpace (c : Char) : Bool :=
  c = ' ' || c = '\t' || c = '\n' || c = '\r' || c = '\x0b' || c = '\x0c' ||
  (0x1c ≤ c.toNat && c.toNat ≤ 0x1f) || c.toNat = 0x85 || c.toNat = 0xa0 ||
  c.toNat = 0x1680 || (0x2000 ≤ c.toNat && c.toNat ≤ 0x200a) ||
  c.toNat = 0x2028 || c.toNat = 0x2029 || c.toNat = 0x202f ||
  c.toNat = 0x205f || c.toNat = 0x3000

/-- The decimal-digit ranges (Unicode category Nd) recognised by Python's
regex class `\d` on `str` patterns, restricted to the scripts of the Basic
Multilingual Plane listed here (ASCII, Arabic-Indic, Extended Arabic-Indic,
the Indic scripts, Thai, Lao, Tibetan, Myanmar, Khmer, Mongolian and the
fullwidth digits).  Rarer digit scripts are omitted, so this slightly
under-approximates `\d`. -/
def pyDigitRanges : List (Nat × Nat) :=
  [(0x30, 0x39), (0x660, 0x669), (0x6f0, 0x6f9), (0x966, 0x96f),
   (0x9e6, 0x9ef), (0xa66, 0xa6f), (0xae6, 0xaef), (0xb66, 0xb6f),
   (0xbe6, 0xbef), (0xc66, 0xc6f), (0xce6, 0xcef), (0xd66, 0xd6f),
   (0xe50, 0xe59), (0xed0, 0xed9), (0xf20, 0xf29), (0x1040, 0x1049),
   (0x17e0, 0x17e9), (0x1810, 0x1819), (0xff10, 0xff19)]

/-- Python's regex class `\d`. -/
def isPyDigit (c : Char) : Bool :=
  pyDigitRanges.any fun r => r.1 ≤ c.toNat && c.toNat ≤ r.2

/-- Python's regex class `\w` (word character).  Modelled as the ASCII
letters, the decimal digits of `isPyDigit` and the underscore; non-ASCII
letters are omitted, so this under-approximates `\w`. -/
def isWordChar (c : Char) : Bool :=
  (('a' ≤ c && c ≤ 'z') || ('A' ≤ c && c ≤ 'Z')) || isPyDigit c || c = '_'

/-- ASCII lowercase letter test. -/
def isAsciiLower (c : Char) : Bool := 'a' ≤ c && c ≤ 'z'

/-- `str.upper` on one character.  Python applies the full Unicode case
mapping; this model applies the ASCII mapping and leaves every other
character unchanged. -/
def pyUpperChar (c : Char) : Char :=
  if 97 ≤ c.toNat ∧ c.toNat ≤ 122 then Char.ofNat (c.toNat - 32) else c

/-- `str.upper`. -/
def pyUpper (s : String) : String := ⟨s.data.map pyUpperChar⟩

/-- Python's `sub in hay` on strings: contiguous-substring test. -/
def strContains (hay sub : String) : Bool := decide (sub.data <:+: hay.data)

/-- Case-insensitive equality of two characters, as Python's `re.IGNORECASE`
treats the ASCII letters. -/
def ciEq (a b : Char) : Bool := pyUpperChar a = pyUpperChar b

/-- Consume a case-insensitive literal, returning the remaining input. -/
def eatLitCI : List Char → List Char → Option (List Char)
  | [], l => some l
  | _ :: _, [] => none
  | a :: as, c :: cs => if ciEq a c then eatLitCI as cs else none

end PyStr

namespace RateLimiter

open PyStr

/-- The per-user request log of `RateLimiter.__init__`: a map from user id
to the recorded request times (integer seconds), empty by default as with
the code's missing-key initialisation. -/
abbrev Requests : Type := String → List Int

/-- `RateLimiter.is_rate_limited` from `Poc/mutiagnet.py`.  `now` is
`datetime.now()` in seconds; the result is the returned pair together with
the updated request map. -/
def is_rate_limited (requests : Requests) (user_id : String) (now : Int)
    (max_per_minute max_per_hour : Int) : (Bool × String) × Requests :=
  let cleaned := (requests user_id).filter fun t => now - t < 3600
  let requests_last_minute : Int := cleaned.countP fun t => now - 60 < t
  if max_per_minute ≤ requests_last_minute then
    ((true, "Rate limit exceeded: " ++ toString max_per_minute ++ " requests per minute"),
     fun u => if u = user_id then cleaned else requests u)
  else
    let requests_last_hour : Int := cleaned.countP fun t => now - 3600 < t
    if max_per_hour ≤ requests_last_hour then
      ((true, "Rate limit exceeded: " ++ toString max_per_hour ++ " requests per hour"),
       fun u => if u = user_id then cleaned else requests u)
    else
      ((false, "OK"), fun u => if u = user_id then cleaned ++ [now] else requests u)

/-- The pruning step of `is_rate_limited`: keep only the requests made less
than one hour before `now`. -/
def pruneHour (now : Int) (l : List Int) : List Int :=
  l.filter fun t => now - t < 3600

end RateLimiter

namespace GuardRailsConfig

/-- `GuardRailsConfig.MAX_QUERY_LENGTH`. -/
def MAX_QUERY_LENGTH : Nat := 1000

/-- `GuardRailsConfig.MIN_QUERY_LENGTH`. -/
def MIN_QUERY_LENGTH : Nat := 5

/-- `GuardRailsConfig.MAX_REQUESTS_PER_MINUTE`. -/
def MAX_REQUESTS_PER_MINUTE : Int := 30

/-- `GuardRailsConfig.MAX_REQUESTS_PER_HOUR`. -/
def MAX_REQUESTS_PER_HOUR : Int := 300

/-- `GuardRailsConfig.BLOCKED_KEYWORDS`, in source order. -/
def BLOCKED_KEYWORDS : List String :=
  ["DROP", "DELETE", "TRUNCATE", "INSERT", "UPDATE",
   "EXEC", "EXECUTE", "SCRIPT", "JAVASCRIPT", "EVAL",
   "SYSTEM", "SHELL", "BASH", "CMD", "POWERSHELL",
   "../", "..\\", "passwd", "shadow", "/etc/"]

end GuardRailsConfig

namespace GuardRails

open PyStr

/-- The character class `[';\"]` of the first suspicious pattern. -/
def quoteSemiC (c : Char) : Bool := c = '\'' || c = ';' || c = '"'

/-- The alternation `(OR|AND)` under `re.IGNORECASE`. -/
def matchOrAnd (l : List Char) : Option (List Char) :=
  match eatLitCI "OR".data l with
  | some r => some r
  | none => eatLitCI "AND".data l

/-- Match of `[';\"]+\s*(OR|AND)\s*[';\"]+` starting at the head of `l`.
The character classes are pairwise disjoint from what follows them, so
greedy maximal munch is exact here. -/
def p1At (l : List Char) : Bool :=
  match l with
  | [] => false
  | c :: cs =>
    if quoteSemiC c then
      let l1 := cs.dropWhile quoteSemiC
      let l2 := l1.dropWhile isPySpace
      match matchOrAnd l2 with
      | none => false
      | some l3 =>
        match l3.dropWhile isPySpace with
        | d :: _ => quoteSemiC d
        | [] => false
    else false

/-- Match of the template-injection pattern `\$\{.*\}` starting at the head
of `l`: a dollar-brace, then a closing brace with no newline in between
(`.` does not match a newline). -/
def p2At : List Char → Bool
  | '$' :: '\x7b' :: rest => (rest.takeWhile fun c => c ≠ '\n').contains '\x7d'
  | _ => false

/-- Match of the template-injection pattern `{{.*}}` starting at the head of
`l`: two opening braces, then two adjacent closing braces with no newline
in between. -/
def p3At : List Char → Bool
  | '\x7b' :: '\x7b' :: rest =>
      decide (['\x7d', '\x7d'] <:+: (rest.takeWhile fun c => c ≠ '\n'))
  | _ => false

/-- `re.search`: does the pattern match starting at some position? -/
def searchList (p : List Char → Bool) : List Char → Bool
  | [] => p []
  | c :: cs => p (c :: cs) || searchList p cs

/-- The loop over `suspicious_patterns` in `GuardRails.validate_input`. -/
def suspiciousMatch (query : String) : Bool :=
  searchList p1At query.data || searchList p2At query.data || searchList p3At query.data

/-- The keyword scan of `GuardRails.validate_input`: some entry of
`BLOCKED_KEYWORDS` occurs in the upper-cased query. -/
def keywordHit (query : String) : Bool :=
  GuardRailsConfig.BLOCKED_KEYWORDS.any fun k => strContains (pyUpper query) k

/-- The mutable state of a `GuardRails` object: the rate limiter's request
map, `blocked_queries` and `suspicious_queries`. -/
abbrev GRState : Type := RateLimiter.Requests × List String × List String

/-- `GuardRails.validate_input` from `Poc/mutiagnet.py`: returns the
`(is_valid, message)` pair and the updated guard-rails state. -/
def validate_input (st : GRState) (query : String) (user_id : String) (now : Int) :
    (Bool × String) × GRState :=
  if query.length < GuardRailsConfig.MIN_QUERY_LENGTH then
    ((false, "Query too short. Please provide more context."), st)
  else if GuardRailsConfig.MAX_QUERY_LENGTH < query.length then
    ((false, "Query exceeds maximum length of 1000 characters."), st)
  else
    let r := RateLimiter.is_rate_limited st.1 user_id now
      GuardRailsConfig.MAX_REQUESTS_PER_MINUTE GuardRailsConfig.MAX_REQUESTS_PER_HOUR
    if r.1.1 then
      ((false, r.1.2), (r.2, st.2.1, st.2.2))
    else if keywordHit query then
      ((false, "⚠️ Query contains prohibited content. Only order-related queries are allowed."),
       (r.2, st.2.1 ++ [query], st.2.2))
    else if suspiciousMatch query then
      ((false, "⚠️ Query format is suspicious. Please rephrase your question."),
       (r.2, st.2.1, st.2.2 ++ [query]))
    else
      ((true, "VALIDATED"), (r.2, st.2.1, st.2.2))

/-- The class `[\s#:]` separating `order` from the digits in the extraction
pattern of `extract_and_validate_order_id`. -/
def orderSepC (c : Char) : Bool := isPySpace c || c = '#' || c = ':'

/-- Consume exactly `n` characters of class `\d`, returning them. -/
def grabDigits : Nat → List Char → Option (List Char)
  | 0, _ => some []
  | _ + 1, [] => none
  | n + 1, c :: cs => if isPyDigit c then (grabDigits n cs).map fun g => c :: g else none

/-- Match of `order[\s#:]*(\d{4})` (IGNORECASE) starting at the head of `l`,
returning the captured group.  Digits are disjoint from `[\s#:]`, so greedy
maximal munch on the separator run is exact. -/
def extractAt (l : List Char) : Option (List Char) :=
  match eatLitCI "order".data l with
  | none => none
  | some l1 => grabDigits 4 (l1.dropWhile orderSepC)

/-- First match of the extraction pattern, in left-to-right scan order, as
`re.findall(...)[0]`. -/
def findOrderId : List Char → Option (List Char)
  | [] => none
  | c :: cs =>
    match extractAt (c :: cs) with
    | some g => some g
    | none => findOrderId cs

/-- `re.match(r'^[0-9]{4}$', s)`: four ASCII digits (`$` also tolerates one
trailing newline). -/
def pyMatchOrderId (s : String) : Bool :=
  (decide (s.data.length = 4) && s.data.all Char.isDigit) ||
  (decide (s.data.length = 5) && (s.data.take 4).all Char.isDigit &&
    decide (s.data.getLastD ' ' = '\n'))

/-- `GuardRails.extract_and_validate_order_id` from `Poc/mutiagnet.py`. -/
def extract_and_validate_order_id (query : String) : Option String × Bool :=
  match findOrderId query.data with
  | none => (none, false)
  | some g => (some ⟨g⟩, pyMatchOrderId ⟨g⟩)

end GuardRails

namespace CalculatorMcp

/-- `add` from `MCP/calculatormcp.py`. -/
def add (x y : Int) : Int := x + y

/-- `subtract` from `MCP/calculatormcp.py`. -/
def subtract (x y : Int) : Int := x - y

/-- `multiply` from `MCP/calculatormcp.py`. -/
def multiply (x y : Int) : Int := x * y

/-- Number of binary digits of `n`, with the first argument as fuel
(always instantiated with `n` itself, which bounds the digit count). -/
def bitLenAux : Nat → Nat → Nat
  | 0, _ => 0
  | f + 1, n => if n = 0 then 0 else bitLenAux f (n / 2) + 1

/-- Number of binary digits of `n`. -/
def bitLen (n : Nat) : Nat := bitLenAux n n

/-- `⌊log2 (a / b)⌋` for positive naturals: the digit-count difference,
corrected by one comparison. -/
def floorLog2 (a b : Nat) : Int :=
  let e0 : Int := (bitLen a : Int) - (bitLen b : Int)
  if b * 2 ^ e0.toNat ≤ a * 2 ^ (-e0).toNat then e0 else e0 - 1

/-- `num / den` rounded to the nearest integer, ties to even. -/
def roundHalfEvenDiv (num den : Nat) : Nat :=
  let q := num / den
  let r := num % den
  if 2 * r < den then q
  else if den < 2 * r then q + 1
  else if q % 2 = 0 then q else q + 1

/-- The IEEE binary64 (double) value nearest `a / b` for positive
naturals, as the exact rational that double denotes, or the
`OverflowError` CPython's int-by-int true division raises beyond the
double range.  Normal results use the spacing `2^(e-52)` at exponent `e`,
subnormal results (`e < -1022`) the fixed spacing `2^-1074`; magnitudes
reaching `2^1024` after rounding overflow. -/
def floatDivPos (a b : Nat) : Except String ℚ :=
  let e := floorLog2 a b
  if e < -1022 then
    .ok ((roundHalfEvenDiv (a * 2 ^ 1074) b : ℚ) / 2 ^ 1074)
  else
    let s : Int := 52 - e
    let v : ℚ :=
      if 0 ≤ s then (roundHalfEvenDiv (a * 2 ^ s.toNat) b : ℚ) / 2 ^ s.toNat
      else (roundHalfEvenDiv a (b * 2 ^ (-s).toNat) : ℚ) * 2 ^ (-s).toNat
    if 2 ^ 1024 ≤ v then .error "integer division result too large for a float"
    else .ok v

/-- Python's true division `x / y` of two ints with `y ≠ 0`: the correctly
rounded binary64 quotient (CPython rounds half to even), as the rational
value that double denotes; the signed zero `-0.0` collapses to `0`. -/
def pyFloatDiv (x y : Int) : Except String ℚ :=
  if x = 0 then .ok 0
  else
    match floatDivPos x.natAbs y.natAbs with
    | .error e => .error e
    | .ok v => .ok (if 0 < x * y then v else -v)

/-- `divide` from `MCP/calculatormcp.py`: raises `ValueError` on a zero
divisor, modelled by `Except.error`; otherwise Python's float division
`x / y`. -/
def divide (x y : Int) : Except String ℚ :=
  if y = 0 then .error "Cannot divide by zero" else pyFloatDiv x y

end CalculatorMcp

namespace PySub

open PyStr

/-- A hand-compiled regex matcher: given the character preceding the
current position (needed for word boundaries) and the remaining input,
returns the input remaining after a match starting here, if any. -/
abbrev Matcher := Option Char → List Char → Option (List Char)

/-- One character of a class. -/
def eatP (p : Char → Bool) : List Char → Option (List Char)
  | c :: cs => if p c then some cs else none
  | [] => none

/-- `[cls]+` for a class disjoint from the regex element that follows it:
one character of the class, then maximal munch (exact in that case). -/
def eatPlus (p : Char → Bool) : List Char → Option (List Char)
  | c :: cs => if p c then some (cs.dropWhile p) else none
  | [] => none

/-- Exactly `n` characters of class `\d`. -/
def eatDigits : Nat → List Char → Option (List Char)
  | 0, l => some l
  | _ + 1, [] => none
  | n + 1, c :: cs => if isPyDigit c then eatDigits n cs else none

/-- Backtracking for `[cls]?`: greedily try consuming one class character,
falling back to consuming none if the continuation fails. -/
def optC (p : Char → Bool) (l : List Char) (k : List Char → Option (List Char)) :
    Option (List Char) :=
  match l with
  | c :: cs =>
    if p c then
      match k cs with
      | some r => some r
      | none => k l
    else k l
  | [] => k l

/-- The local-part class `[a-zA-Z0-9._%+-]` of `EMAIL_PATTERN`. -/
def emailC1 (c : Char) : Bool :=
  ('a' ≤ c && c ≤ 'z') || ('A' ≤ c && c ≤ 'Z') || ('0' ≤ c && c ≤ '9') ||
  c = '.' || c = '_' || c = '%' || c = '+' || c = '-'

/-- The domain class `[a-zA-Z0-9.-]` of `EMAIL_PATTERN`. -/
def emailC2 (c : Char) : Bool :=
  ('a' ≤ c && c ≤ 'z') || ('A' ≤ c && c ≤ 'Z') || ('0' ≤ c && c ≤ '9') ||
  c = '.' || c = '-'

/-- ASCII letter test, the class `[a-zA-Z]`. -/
def isAsciiAlpha (c : Char) : Bool := ('a' ≤ c && c ≤ 'z') || ('A' ≤ c && c ≤ 'Z')

/-- `\.[a-zA-Z]{2,}` at the head of `r`; the trailing `{2,}` is greedy and
nothing follows it, so it takes the maximal letter run. -/
def tryTld (r : List Char) : Option (List Char) :=
  match r with
  | '.' :: r2 =>
    let run := r2.takeWhile isAsciiAlpha
    if 2 ≤ run.length then some (r2.drop run.length) else none
  | _ => none

/-- The backtracking tail `[a-zA-Z0-9.-]+\.[a-zA-Z]{2,}` of the e-mail
pattern: the greedy `+` tries the longest domain run first, giving back
characters until the top-level-domain part matches. -/
def emailTail : Nat → List Char → Option (List Char)
  | 0, _ => none
  | j + 1, l =>
    match tryTld (l.drop (j + 1)) with
    | some r => some r
    | none => emailTail j l

/-- `EMAIL_PATTERN = [a-zA-Z0-9._%+-]+@[a-zA-Z0-9.-]+\.[a-zA-Z]{2,}` at the
current position (`@` is not in the local-part class, so that maximal
munch is exact). -/
def emailMatchAt : Matcher := fun _ l =>
  match eatPlus emailC1 l with
  | none => none
  | some l1 =>
    match eatP (fun c => c = '@') l1 with
    | none => none
    | some l2 => emailTail (l2.takeWhile emailC2).length l2

/-- The separator class `[-.]` of `PHONE_PATTERN`. -/
def phoneSep (c : Char) : Bool := c = '-' || c = '.'

/-- The separator class `[\s-]` of `CREDIT_CARD_PATTERN`. -/
def ccSep (c : Char) : Bool := isPySpace c || c = '-'

/-- `\b` before a digit: the previous character must be absent or a
non-word character. -/
def boundaryBefore (prev : Option Char) : Bool :=
  match prev with
  | none => true
  | some p => !(isWordChar p)

/-- `\b` after a digit: the next character must be absent or a non-word
character. -/
def noWordAhead (l : List Char) : Bool :=
  match l with
  | [] => true
  | c :: _ => !(isWordChar c)

/-- `PHONE_PATTERN = \b\d{3}[-.]?\d{3}[-.]?\d{4}\b` at the current
position, with depth-first backtracking over the optional separators. -/
def phoneMatchAt : Matcher := fun prev l =>
  if boundaryBefore prev then
    match eatDigits 3 l with
    | none => none
    | some l1 =>
      optC phoneSep l1 fun l2 =>
        match eatDigits 3 l2 with
        | none => none
        | some l3 =>
          optC phoneSep l3 fun l4 =>
            match eatDigits 4 l4 with
            | none => none
            | some l5 => if noWordAhead l5 then some l5 else none
  else none

/-- `CREDIT_CARD_PATTERN = \b\d{4}[\s-]?\d{4}[\s-]?\d{4}[\s-]?\d{4}\b` at
the current position. -/
def ccMatchAt : Matcher := fun prev l =>
  if boundaryBefore prev then
    match eatDigits 4 l with
    | none => none
    | some l1 =>
      optC ccSep l1 fun l2 =>
        match eatDigits 4 l2 with
        | none => none
        | some l3 =>
          optC ccSep l3 fun l4 =>
            match eatDigits 4 l4 with
            | none => none
            | some l5 =>
              optC ccSep l5 fun l6 =>
                match eatDigits 4 l6 with
                | none => none
                | some l7 => if noWordAhead l7 then some l7 else none
  else none

/-- The lazy search `.*?lit`: stop at the first occurrence of the
case-insensitive literal reachable without crossing a newline. -/
def lazyFind (lit : List Char) : List Char → Option (List Char)
  | [] => none
  | c :: cs =>
    match eatLitCI lit (c :: cs) with
    | some r => some r
    | none => if c = '\n' then none else lazyFind lit cs

/-- `<script[^>]*>.*?</script>` (IGNORECASE) at the current position.  The
`[^>]*` run is maximal (exact since `>` is excluded from the class, and a
negated class also matches newlines). -/
def scriptMatchAt : Matcher := fun _ l =>
  match eatLitCI "<script".data l with
  | none => none
  | some l1 =>
    let l2 := l1.dropWhile fun c => c ≠ '>'
    match eatP (fun c => c = '>') l2 with
    | none => none
    | some l3 => lazyFind "</script>".data l3

/-- The literal pattern `javascript:` (IGNORECASE). -/
def jsMatchAt : Matcher := fun _ l => eatLitCI "javascript:".data l

/-- The literal pattern `onerror=` (IGNORECASE). -/
def onerrorMatchAt : Matcher := fun _ l => eatLitCI "onerror=".data l

/-- `re.sub`'s scan: at each position try the matcher; on a match emit the
replacement and continue after the matched text, remembering the previous
character of the original string for word boundaries.  `fuel` bounds the
recursion and is instantiated with the input length (every pattern here
matches at least one character). -/
def subScan (matchAt : Matcher) (repl : List Char → List Char) :
    Nat → Option Char → List Char → List Char
  | 0, _, l => l
  | _ + 1, _, [] => []
  | fuel + 1, prev, c :: cs =>
    match matchAt prev (c :: cs) with
    | some rest =>
      if rest.length < (c :: cs).length then
        let m := (c :: cs).take ((c :: cs).length - rest.length)
        repl m ++ subScan matchAt repl fuel (some (m.getLastD c)) rest
      else c :: cs
    | none => c :: subScan matchAt repl fuel (some c) cs

/-- `re.sub(pattern, repl, l)` for the matchers above. -/
def pySub (matchAt : Matcher) (repl : List Char → List Char) (l : List Char) : List Char :=
  subScan matchAt repl l.length none l

/-- `'*' * n`. -/
def asterisks (n : Nat) : List Char := List.replicate n '*'

/-- Python `l[-n:]`. -/
def lastN (n : Nat) (l : List Char) : List Char := l.drop (l.length - n)

/-- The e-mail masking lambda: `m.group(0)[:2] + '*'*5 + m.group(0)[7:]`. -/
def emailRepl (m : List Char) : List Char := m.take 2 ++ asterisks 5 ++ m.drop 7

/-- The phone masking lambda: `m.group(0)[:3] + '-***-' + m.group(0)[-4:]`. -/
def phoneRepl (m : List Char) : List Char := m.take 3 ++ "-***-".data ++ lastN 4 m

/-- The credit-card masking lambda: `'****-****-****-' + m.group(0)[-4:]`. -/
def ccRepl (m : List Char) : List Char := "****-****-****-".data ++ lastN 4 m

/-- Replacement by the empty string, as in the dangerous-pattern removal. -/
def dropRepl (_ : List Char) : List Char := []

/-- Specification of one pass of `re.sub` for a matcher and replacement:
the output replaces every leftmost non-overlapping match by the replacement
and copies every other character, scanning left to right. -/
inductive SubSpec (matchAt : Matcher) (repl : List Char → List Char) :
    Option Char → List Char → List Char → Prop where
  | nil (prev : Option Char) : SubSpec matchAt repl prev [] []
  | noMatch (prev : Option Char) (c : Char) (cs out : List Char) :
      matchAt prev (c :: cs) = none →
      SubSpec matchAt repl (some c) cs out →
      SubSpec matchAt repl prev (c :: cs) (c :: out)
  | matched (prev : Option Char) (c : Char) (cs m rest out : List Char) :
      matchAt prev (c :: cs) = some rest →
      c :: cs = m ++ rest →
      m ≠ [] →
      SubSpec matchAt repl (some (m.getLastD c)) rest out →
      SubSpec matchAt repl prev (c :: cs) (repl m ++ out)

/-- A matcher is consuming when every match eats at least one character and
leaves a suffix of its input. -/
def Consuming (matchAt : Matcher) : Prop :=
  ∀ prev l rest, matchAt prev l = some rest → rest.length < l.length ∧ rest <:+ l

end PySub

namespace GuardRails

/-- `GuardRails.sanitize_output` from `Poc/mutiagnet.py`: mask e-mail
addresses, phone numbers and credit-card numbers, then remove
`<script>...</script>` blocks, `javascript:` and `onerror=` fragments.
The unused `agent_name` parameter is omitted. -/
def sanitize_output (output : String) : String :=
  let s1 := PySub.pySub PySub.emailMatchAt PySub.emailRepl output.data
  let s2 := PySub.pySub PySub.phoneMatchAt PySub.phoneRepl s1
  let s3 := PySub.pySub PySub.ccMatchAt PySub.ccRepl s2
  let s4 := PySub.pySub PySub.scriptMatchAt PySub.dropRepl s3
  let s5 := PySub.pySub PySub.jsMatchAt PySub.dropRepl s4
  ⟨PySub.pySub PySub.onerrorMatchAt PySub.dropRepl s5⟩

end GuardRails

namespace PyJson

mutual

/-- JSON values as `json.loads` produces them.  Arrays and objects carry
their own spine so that the recursions below are structural; numbers keep
their source lexeme (the short decimal literals of the data re-serialise
unchanged, so this stands in for Python's int/float round-trip). -/
inductive Json where
  | null : Json
  | bool (b : Bool) : Json
  | num (lit : String) : Json
  | str (s : String) : Json
  | arr (xs : JsonArr) : Json
  | obj (fields : JsonObj) : Json

/-- Spine of a JSON array. -/
inductive JsonArr where
  | nil : JsonArr
  | cons (hd : Json) (tl : JsonArr) : JsonArr

/-- Spine of a JSON object, in insertion order. -/
inductive JsonObj where
  | nil : JsonObj
  | cons (key : String) (val : Json) (tl : JsonObj) : JsonObj

end

/-- Lowercase hexadecimal digit, as in Python's `\uXXXX` escapes. -/
def hexDigit (n : Nat) : Char := if n < 10 then Char.ofNat (48 + n) else Char.ofNat (87 + n)

/-- A `\uXXXX` escape. -/
def uEscape (n : Nat) : List Char :=
  ['\\', 'u', hexDigit (n / 4096 % 16), hexDigit (n / 256 % 16), hexDigit (n / 16 % 16),
   hexDigit (n % 16)]

/-- `json.dumps` escaping of one character, with the default
`ensure_ascii=True` (non-ASCII becomes `\uXXXX`, astral characters a
surrogate pair). -/
def escChar (c : Char) : List Char :=
  if c = '"' then ['\\', '"']
  else if c = '\\' then ['\\', '\\']
  else if c = '\n' then ['\\', 'n']
  else if c = '\r' then ['\\', 'r']
  else if c = '\t' then ['\\', 't']
  else if c.toNat = 8 then ['\\', 'b']
  else if c.toNat = 12 then ['\\', 'f']
  else if c.toNat < 0x20 then uEscape c.toNat
  else if c.toNat < 0x7f then [c]
  else if c.toNat ≤ 0xffff then uEscape c.toNat
  else
    uEscape (0xd800 + (c.toNat - 0x10000) / 1024) ++
      uEscape (0xdc00 + (c.toNat - 0x10000) % 1024)

/-- A serialised JSON string literal. -/
def quoteStr (s : String) : String := ⟨'"' :: (s.data.map escChar).flatten ++ ['"']⟩

mutual

/-- `json.dumps(v)` with the default separators `(', ', ': ')`. -/
def dumps : Json → String
  | .null => "null"
  | .bool true => "true"
  | .bool false => "false"
  | .num lit => lit
  | .str s => quoteStr s
  | .arr .nil => "[]"
  | .arr (.cons j tl) => "[" ++ dumps j ++ dumpsArr tl ++ "]"
  | .obj .nil => "\x7b\x7d"
  | .obj (.cons k v tl) => "\x7b" ++ quoteStr k ++ ": " ++ dumps v ++ dumpsObj tl ++ "\x7d"

/-- Remaining array items, comma-separated. -/
def dumpsArr : JsonArr → String
  | .nil => ""
  | .cons j tl => ", " ++ dumps j ++ dumpsArr tl

/-- Remaining object items, comma-separated. -/
def dumpsObj : JsonObj → String
  | .nil => ""
  | .cons k v tl => ", " ++ quoteStr k ++ ": " ++ dumps v ++ dumpsObj tl

end

/-- The indentation prefix at nesting `level` for `indent=2`. -/
def ind (level : Nat) : String := ⟨List.replicate (2 * level) ' '⟩

mutual

/-- `json.dumps(v, indent=2)` at nesting `level`: non-empty containers are
broken over lines, empty ones stay `[]` and `{}`. -/
def dumpsI : Nat → Json → String
  | _, .null => "null"
  | _, .bool true => "true"
  | _, .bool false => "false"
  | _, .num lit => lit
  | _, .str s => quoteStr s
  | _, .arr .nil => "[]"
  | level, .arr (.cons j tl) =>
      "[\n" ++ ind (level + 1) ++ dumpsI (level + 1) j ++ dumpsIArr (level + 1) tl ++
        "\n" ++ ind level ++ "]"
  | _, .obj .nil => "\x7b\x7d"
  | level, .obj (.cons k v tl) =>
      "\x7b\n" ++ ind (level + 1) ++ quoteStr k ++ ": " ++ dumpsI (level + 1) v ++
        dumpsIObj (level + 1) tl ++ "\n" ++ ind level ++ "\x7d"

/-- Remaining array items under `indent=2`. -/
def dumpsIArr : Nat → JsonArr → String
  | _, .nil => ""
  | level, .cons j tl => ",\n" ++ ind level ++ dumpsI level j ++ dumpsIArr level tl

/-- Remaining object items under `indent=2`. -/
def dumpsIObj : Nat → JsonObj → String
  | _, .nil => ""
  | level, .cons k v tl =>
      ",\n" ++ ind level ++ quoteStr k ++ ": " ++ dumpsI level v ++ dumpsIObj level tl

end

/-- JSON whitespace accepted by `json.loads`. -/
def jsonWs (c : Char) : Bool := c = ' ' || c = '\t' || c = '\n' || c = '\r'

/-- Value of a hexadecimal digit. -/
def hexVal (c : Char) : Option Nat :=
  if '0' ≤ c ∧ c ≤ '9' then some (c.toNat - 48)
  else if 'a' ≤ c ∧ c ≤ 'f' then some (c.toNat - 87)
  else if 'A' ≤ c ∧ c ≤ 'F' then some (c.toNat - 55)
  else none

/-- ASCII digit test. -/
def isDigitC (c : Char) : Bool := '0' ≤ c && c ≤ '9'

/-- Consume a case-sensitive literal. -/
def eatLit : List Char → List Char → Option (List Char)
  | [], l => some l
  | _ :: _, [] => none
  | a :: as, c :: cs => if a = c then eatLit as cs else none

/-- Decode the body of a JSON string literal, after the opening quote.
Python keeps lone surrogates from `\uXXXX` escapes in the decoded `str`;
they become U+FFFD here since Lean characters are scalar values. -/
def parseStr : Nat → List Char → List Char → Except String (String × List Char)
  | 0, _, _ => .error "Unterminated string"
  | _ + 1, [], _ => .error "Unterminated string"
  | fuel + 1, c :: cs, acc =>
    if c = '"' then .ok (⟨acc.reverse⟩, cs)
    else if c = '\\' then
      match cs with
      | '"' :: r => parseStr fuel r ('"' :: acc)
      | '\\' :: r => parseStr fuel r ('\\' :: acc)
      | '/' :: r => parseStr fuel r ('/' :: acc)
      | 'b' :: r => parseStr fuel r ('\x08' :: acc)
      | 'f' :: r => parseStr fuel r ('\x0c' :: acc)
      | 'n' :: r => parseStr fuel r ('\n' :: acc)
      | 'r' :: r => parseStr fuel r ('\r' :: acc)
      | 't' :: r => parseStr fuel r ('\t' :: acc)
      | 'u' :: h1 :: h2 :: h3 :: h4 :: r =>
        match hexVal h1, hexVal h2, hexVal h3, hexVal h4 with
        | some a, some b, some c2, some d =>
          let n := 4096 * a + 256 * b + 16 * c2 + d
          if 0xd800 ≤ n ∧ n ≤ 0xdbff then
            match r with
            | '\\' :: 'u' :: g1 :: g2 :: g3 :: g4 :: r2 =>
              match hexVal g1, hexVal g2, hexVal g3, hexVal g4 with
              | some a2, some b2, some c3, some d2 =>
                let m := 4096 * a2 + 256 * b2 + 16 * c3 + d2
                if 0xdc00 ≤ m ∧ m ≤ 0xdfff then
                  parseStr fuel r2
                    (Char.ofNat (0x10000 + 1024 * (n - 0xd800) + (m - 0xdc00)) :: acc)
                else parseStr fuel r ('\ufffd' :: acc)
              | _, _, _, _ => parseStr fuel r ('\ufffd' :: acc)
            | _ => parseStr fuel r ('\ufffd' :: acc)
          else if 0xdc00 ≤ n ∧ n ≤ 0xdfff then parseStr fuel r ('\ufffd' :: acc)
          else parseStr fuel r (Char.ofNat n :: acc)
        | _, _, _, _ => .error "Invalid hexadecimal escape"
      | _ => .error "Invalid escape"
    else if c.toNat < 0x20 then .error "Invalid control character"
    else parseStr fuel cs (c :: acc)

/-- Lex a JSON number, following `-?(0|[1-9]\d*)(\.\d+)?([eE][-+]?\d+)?`. -/
def lexNum (l : List Char) : Except String (String × List Char) :=
  let p := match l with
           | '-' :: r => (['-'], r)
           | _ => (([] : List Char), l)
  let neg := p.1
  let l1 := p.2
  let ds := match l1 with
            | '0' :: _ => ['0']
            | _ => l1.takeWhile isDigitC
  if ds.isEmpty then .error "Expecting value"
  else
    let l2 := l1.drop ds.length
    let q := match l2 with
             | '.' :: r =>
               let fs := r.takeWhile isDigitC
               if fs.isEmpty then (([] : List Char), l2)
               else ('.' :: fs, r.drop fs.length)
             | _ => (([] : List Char), l2)
    let frac := q.1
    let l3 := q.2
    let w := match l3 with
             | e :: r =>
               if e = 'e' ∨ e = 'E' then
                 match r with
                 | sgn :: r2 =>
                   if sgn = '+' ∨ sgn = '-' then
                     let es := r2.takeWhile isDigitC
                     if es.isEmpty then (([] : List Char), l3)
                     else (e :: sgn :: es, r2.drop es.length)
                   else
                     let es := r.takeWhile isDigitC
                     if es.isEmpty then (([] : List Char), l3)
                     else (e :: es, r.drop es.length)
                 | [] => (([] : List Char), l3)
               else (([] : List Char), l3)
             | [] => (([] : List Char), l3)
    .ok (⟨neg ++ ds ++ frac ++ w.1⟩, w.2)

mutual

/-- Recursive-descent core of `json.loads`: parse one JSON value. -/
def parseVal : Nat → List Char → Except String (Json × List Char)
  | 0, _ => .error "Too deeply nested"
  | fuel + 1, l =>
    match l.dropWhile jsonWs with
    | [] => .error "Expecting value"
    | c :: cs =>
      if c = '"' then
        match parseStr (cs.length + 1) cs [] with
        | .error e => .error e
        | .ok (s, r) => .ok (Json.str s, r)
      else if c = '[' then
        match cs.dropWhile jsonWs with
        | ']' :: r => .ok (Json.arr JsonArr.nil, r)
        | _ =>
          match parseArrItems fuel cs with
          | .error e => .error e
          | .ok (xs, r) => .ok (Json.arr xs, r)
      else if c = '\x7b' then
        match cs.dropWhile jsonWs with
        | '\x7d' :: r => .ok (Json.obj JsonObj.nil, r)
        | _ =>
          match parseObjItems fuel cs with
          | .error e => .error e
          | .ok (fs, r) => .ok (Json.obj fs, r)
      else if c = 't' then
        match eatLit "true".data (c :: cs) with
        | some r => .ok (Json.bool true, r)
        | none => .error "Expecting value"
      else if c = 'f' then
        match eatLit "false".data (c :: cs) with
        | some r => .ok (Json.bool false, r)
        | none => .error "Expecting value"
      else if c = 'n' then
        match eatLit "null".data (c :: cs) with
        | some r => .ok (Json.null, r)
        | none => .error "Expecting value"
      else if c = '-' ∨ isDigitC c then
        match lexNum (c :: cs) with
        | .error e => .error e
        | .ok (lit, r) => .ok (Json.num lit, r)
      else .error "Expecting value"

/-- Items of a non-empty array, after its opening bracket. -/
def parseArrItems : Nat → List Char → Except String (JsonArr × List Char)
  | 0, _ => .error "Too deeply nested"
  | fuel + 1, l =>
    match parseVal fuel l with
    | .error e => .error e
    | .ok (j, r) =>
      match r.dropWhile jsonWs with
      | ',' :: r2 =>
        match parseArrItems fuel r2 with
        | .error e => .error e
        | .ok (tl, r3) => .ok (JsonArr.cons j tl, r3)
      | ']' :: r2 => .ok (JsonArr.cons j JsonArr.nil, r2)
      | _ => .error "Expecting delimiter"

/-- Items of a non-empty object, after its opening brace. -/
def parseObjItems : Nat → List Char → Except String (JsonObj × List Char)
  | 0, _ => .error "Too deeply nested"
  | fuel + 1, l =>
    match l.dropWhile jsonWs with
    | '"' :: cs =>
      match parseStr (cs.length + 1) cs [] with
      | .error e => .error e
      | .ok (k, r) =>
        match r.dropWhile jsonWs with
        | ':' :: r2 =>
          match parseVal fuel r2 with
          | .error e => .error e
          | .ok (v, r3) =>
            match r3.dropWhile jsonWs with
            | ',' :: r4 =>
              match parseObjItems fuel r4 with
              | .error e => .error e
              | .ok (tl, r5) => .ok (JsonObj.cons k v tl, r5)
            | '\x7d' :: r4 => .ok (JsonObj.cons k v JsonObj.nil, r4)
            | _ => .error "Expecting delimiter"
        | _ => .error "Expecting colon delimiter"
    | _ => .error "Expecting property name"

end

/-- `json.loads`. -/
def jsonLoads (s : String) : Except String Json :=
  match parseVal (s.length + 2) s.data with
  | .error e => .error e
  | .ok (j, rest) =>
    if (rest.dropWhile jsonWs).isEmpty then .ok j else .error "Extra data"

end PyJson

namespace Orders

/-- One row of `orders.csv`, with the columns the code reads. -/
structure OrderRow where
  order_id : String
  customer_email : String
  order_date : String
  order_status : String
  items_json : String
  total_amount : String
  currency : String
  tracking_number : String
  carrier : String
  est_delivery : String
  shipping_address : String
  is_returnable : String
  last_update_note : String

/-- The Python value returned by the CSV lookup: a row dict, `None`, or the
dict built as `{"error": msg}` when reading the CSV raised. -/
inductive CsvLookup where
  | found (row : OrderRow)
  | notFound
  | err (msg : String)

/-- Outcome of opening and reading `orders.csv`, which lives outside the
program: the parsed rows in file order, or the raised exception's message. -/
abbrev CsvData := Except String (List OrderRow)

/-- The row loop shared by `find_order_by_id` and `load_order_data`: the
first row whose `order_id` column equals the argument. -/
def findRow (order_id : String) : List OrderRow → Option OrderRow
  | [] => none
  | row :: rows => if row.order_id = order_id then some row else findRow order_id rows

/-- `find_order_by_id` from `Poc/order_mcp_server.py`. -/
def find_order_by_id (csv : CsvData) (order_id : String) : CsvLookup :=
  match csv with
  | .error e => .err e
  | .ok rows =>
    match findRow order_id rows with
    | some row => .found row
    | none => .notFound

/-- `load_order_data` from `Poc/mutiagnet.py`: textually the same CSV scan
as `find_order_by_id`. -/
def load_order_data (csv : CsvData) (order_id : String) : CsvLookup :=
  match csv with
  | .error e => .err e
  | .ok rows =>
    match findRow order_id rows with
    | some row => .found row
    | none => .notFound

end Orders

namespace Mutiagnet

/-- `process_customer_query_multiagent` from `Poc/mutiagnet.py`.  The swarm
invocation `order_swarm(query)` is an external call whose outcome (a result
or a raised exception) is passed in as `swarmOutcome`; the printed output is
not modelled. -/
def process_customer_query_multiagent {α : Type} (st : GuardRails.GRState)
    (query : String) (user_id : String) (now : Int)
    (swarmOutcome : Except String α) : Option α × GuardRails.GRState :=
  let v := GuardRails.validate_input st query user_id now
  if v.1.1 = false then (none, v.2)
  else
    let _ := GuardRails.extract_and_validate_order_id query
    match swarmOutcome with
    | .ok result => (some result, v.2)
    | .error _ => (none, v.2)

/-- `get_order_status` from `Poc/mutiagnet.py`.  `Except.error` models an
uncaught Python exception: on the `{"error": ...}` dict produced by a
failed CSV read, the truthiness test passes and the field access raises a
`KeyError`. -/
def get_order_status (csv : Orders.CsvData) (order_id : String) : Except String String :=
  match Orders.load_order_data csv order_id with
  | .notFound => .ok ("Order " ++ order_id ++ " not found")
  | .err _ => .error "KeyError: order_id"
  | .found order =>
    .ok (GuardRails.sanitize_output (PyJson.dumpsI 0 (PyJson.Json.obj
      (.cons "order_id" (.str order.order_id)
        (.cons "order_status" (.str order.order_status)
          (.cons "last_update_note" (.str order.last_update_note)
            (.cons "est_delivery" (.str order.est_delivery) .nil)))))))

/-- `get_tracking_info` from `Poc/mutiagnet.py`. -/
def get_tracking_info (csv : Orders.CsvData) (order_id : String) : Except String String :=
  match Orders.load_order_data csv order_id with
  | .notFound => .ok ("Order " ++ order_id ++ " not found")
  | .err _ => .error "KeyError: order_id"
  | .found order =>
    .ok (GuardRails.sanitize_output (PyJson.dumpsI 0 (PyJson.Json.obj
      (.cons "order_id" (.str order.order_id)
        (.cons "tracking_number" (.str order.tracking_number)
          (.cons "carrier" (.str order.carrier)
            (.cons "status" (.str order.order_status)
              (.cons "est_delivery" (.str order.est_delivery) .nil))))))))

/-- `get_order_items` from `Poc/mutiagnet.py`; a malformed `items_json`
makes `json.loads` raise. -/
def get_order_items (csv : Orders.CsvData) (order_id : String) : Except String String :=
  match Orders.load_order_data csv order_id with
  | .notFound => .ok ("Order " ++ order_id ++ " not found")
  | .err _ => .error "KeyError: order_id"
  | .found order =>
    match PyJson.jsonLoads order.items_json with
    | .error e => .error e
    | .ok items =>
      .ok (GuardRails.sanitize_output (PyJson.dumpsI 0 (PyJson.Json.obj
        (.cons "order_id" (.str order.order_id)
          (.cons "items" items
            (.cons "total_amount" (.str order.total_amount)
              (.cons "currency" (.str order.currency)
                (.cons "order_date" (.str order.order_date) .nil))))))))

/-- `check_return_eligibility` from `Poc/mutiagnet.py`. -/
def check_return_eligibility (csv : Orders.CsvData) (order_id : String) :
    Except String String :=
  match Orders.load_order_data csv order_id with
  | .notFound => .ok ("Order " ++ order_id ++ " not found")
  | .err _ => .error "KeyError: order_id"
  | .found order =>
    let is_returnable := PyStr.pyUpper order.is_returnable = "TRUE"
    match PyJson.jsonLoads order.items_json with
    | .error e => .error e
    | .ok items =>
      .ok (GuardRails.sanitize_output (PyJson.dumpsI 0 (PyJson.Json.obj
        (.cons "order_id" (.str order.order_id)
          (.cons "order_status" (.str order.order_status)
            (.cons "is_returnable" (.bool is_returnable)
              (.cons "message" (.str (if is_returnable then "This order can be returned"
                  else "This order cannot be returned"))
                (.cons "items" items .nil))))))))

/-- `get_shipping_address` from `Poc/mutiagnet.py`. -/
def get_shipping_address (csv : Orders.CsvData) (order_id : String) : Except String String :=
  match Orders.load_order_data csv order_id with
  | .notFound => .ok ("Order " ++ order_id ++ " not found")
  | .err _ => .error "KeyError: order_id"
  | .found order =>
    .ok (GuardRails.sanitize_output (PyJson.dumpsI 0 (PyJson.Json.obj
      (.cons "order_id" (.str order.order_id)
        (.cons "shipping_address" (.str order.shipping_address)
          (.cons "carrier" (.str order.carrier)
            (.cons "tracking_number" (.str order.tracking_number) .nil)))))))

/-- `get_full_order_details` from `Poc/mutiagnet.py`. -/
def get_full_order_details (csv : Orders.CsvData) (order_id : String) :
    Except String String :=
  match Orders.load_order_data csv order_id with
  | .notFound => .ok ("Order " ++ order_id ++ " not found")
  | .err _ => .error "KeyError: order_id"
  | .found order =>
    match PyJson.jsonLoads order.items_json with
    | .error e => .error e
    | .ok items =>
      .ok (GuardRails.sanitize_output (PyJson.dumpsI 0 (PyJson.Json.obj
        (.cons "order_id" (.str order.order_id)
          (.cons "customer_email" (.str order.customer_email)
            (.cons "order_date" (.str order.order_date)
              (.cons "order_status" (.str order.order_status)
                (.cons "items" items
                  (.cons "total_amount" (.str order.total_amount)
                    (.cons "currency" (.str order.currency)
                      (.cons "tracking_number" (.str order.tracking_number)
                        (.cons "carrier" (.str order.carrier)
                          (.cons "est_delivery" (.str order.est_delivery)
                            (.cons "shipping_address" (.str order.shipping_address)
                              (.cons "is_returnable" (.str order.is_returnable)
                                (.cons "last_update_note" (.str order.last_update_note)
                                  .nil))))))))))))))))

end Mutiagnet

namespace OrderMcpServer

/-- The not-found response of the MCP tools:
`json.dumps({"error": f"Order {order_id} not found"})`. -/
def notFoundJson (order_id : String) : String :=
  PyJson.dumps (PyJson.Json.obj
    (.cons "error" (.str ("Order " ++ order_id ++ " not found")) .nil))

/-- `get_order_status` from `Poc/order_mcp_server.py`. -/
def get_order_status (csv : Orders.CsvData) (order_id : String) : Except String String :=
  match Orders.find_order_by_id csv order_id with
  | .notFound => .ok (notFoundJson order_id)
  | .err _ => .error "KeyError: order_id"
  | .found order =>
    .ok (PyJson.dumpsI 0 (PyJson.Json.obj
      (.cons "order_id" (.str order.order_id)
        (.cons "order_status" (.str order.order_status)
          (.cons "last_update_note" (.str order.last_update_note)
            (.cons "est_delivery" (.str order.est_delivery) .nil))))))

/-- `get_tracking_info` from `Poc/order_mcp_server.py`. -/
def get_tracking_info (csv : Orders.CsvData) (order_id : String) : Except String String :=
  match Orders.find_order_by_id csv order_id with
  | .notFound => .ok (notFoundJson order_id)
  | .err _ => .error "KeyError: order_id"
  | .found order =>
    .ok (PyJson.dumpsI 0 (PyJson.Json.obj
      (.cons "order_id" (.str order.order_id)
        (.cons "tracking_number" (.str order.tracking_number)
          (.cons "carrier" (.str order.carrier)
            (.cons "status" (.str order.order_status)
              (.cons "est_delivery" (.str order.est_delivery) .nil)))))))

/-- `get_order_items` from `Poc/order_mcp_server.py`. -/
def get_order_items (csv : Orders.CsvData) (order_id : String) : Except String String :=
  match Orders.find_order_by_id csv order_id with
  | .notFound => .ok (notFoundJson order_id)
  | .err _ => .error "KeyError: order_id"
  | .found order =>
    match PyJson.jsonLoads order.items_json with
    | .error e => .error e
    | .ok items =>
      .ok (PyJson.dumpsI 0 (PyJson.Json.obj
        (.cons "order_id" (.str order.order_id)
          (.cons "items" items
            (.cons "total_amount" (.str order.total_amount)
              (.cons "currency" (.str order.currency)
                (.cons "order_date" (.str order.order_date) .nil)))))))

/-- `check_return_eligibility` from `Poc/order_mcp_server.py`. -/
def check_return_eligibility (csv : Orders.CsvData) (order_id : String) :
    Except String String :=
  match Orders.find_order_by_id csv order_id with
  | .notFound => .ok (notFoundJson order_id)
  | .err _ => .error "KeyError: order_id"
  | .found order =>
    let is_returnable := PyStr.pyUpper order.is_returnable = "TRUE"
    match PyJson.jsonLoads order.items_json with
    | .error e => .error e
    | .ok items =>
      .ok (PyJson.dumpsI 0 (PyJson.Json.obj
        (.cons "order_id" (.str order.order_id)
          (.cons "order_status" (.str order.order_status)
            (.cons "is_returnable" (.bool is_returnable)
              (.cons "message" (.str (if is_returnable then "This order can be returned"
                  else "This order cannot be returned"))
                (.cons "items" items .nil)))))))

/-- `get_full_order_details` from `Poc/order_mcp_server.py`. -/
def get_full_order_details (csv : Orders.CsvData) (order_id : String) :
    Except String String :=
  match Orders.find_order_by_id csv order_id with
  | .notFound => .ok (notFoundJson order_id)
  | .err _ => .error "KeyError: order_id"
  | .found order =>
    match PyJson.jsonLoads order.items_json with
    | .error e => .error e
    | .ok items =>
      .ok (PyJson.dumpsI 0 (PyJson.Json.obj
        (.cons "order_id" (.str order.order_id)
          (.cons "customer_email" (.str order.customer_email)
            (.cons "order_date" (.str order.order_date)
              (.cons "order_status" (.str order.order_status)
                (.cons "items" items
                  (.cons "total_amount" (.str order.total_amount)
                    (.cons "currency" (.str order.currency)
                      (.cons "tracking_number" (.str order.tracking_number)
                        (.cons "carrier" (.str order.carrier)
                          (.cons "est_delivery" (.str order.est_delivery)
                            (.cons "shipping_address" (.str order.shipping_address)
                              (.cons "is_returnable" (.str order.is_returnable)
                                (.cons "last_update_note" (.str order.last_update_note)
                                  .nil)))))))))))))))

/-- `get_shipping_address` from `Poc/order_mcp_server.py`. -/
def get_shipping_address (csv : Orders.CsvData) (order_id : String) : Except String String :=
  match Orders.find_order_by_id csv order_id with
  | .notFound => .ok (notFoundJson order_id)
  | .err _ => .error "KeyError: order_id"
  | .found order =>
    .ok (PyJson.dumpsI 0 (PyJson.Json.obj
      (.cons "order_id" (.str order.order_id)
        (.cons "shipping_address" (.str order.shipping_address)
          (.cons "carrier" (.str order.carrier)
            (.cons "tracking_number" (.str order.tracking_number) .nil))))))

end OrderMcpServer

/-! ## Theorems -/

namespace PyStr

theorem charLe_iff_toNat (a b : Char) : a ≤ b ↔ a.toNat ≤ b.toNat := Iff.rfl

theorem toNat_ofNat_of_valid {n : Nat} (h : n < 0xd800) : (Char.ofNat n).toNat = n := by
  have hv : n.isValidChar := Or.inl (by omega)
  have hlt : n < 2 ^ 32 := by omega
  simp [Char.ofNat, hv, Char.ofNatAux, Char.toNat, UInt32.toNat, BitVec.toNat_ofNat,
    Nat.mod_eq_of_lt hlt]

/-- The ASCII uppercase map never produces an ASCII lowercase letter. -/
theorem isAsciiLower_pyUpperChar (c : Char) : isAsciiLower (pyUpperChar c) = false := by
  unfold pyUpperChar isAsciiLower
  split
  · next h =>
    have ht : (Char.ofNat (c.toNat - 32)).toNat = c.toNat - 32 :=
      toNat_ofNat_of_valid (by omega)
    have h97 : ¬ ('a' ≤ Char.ofNat (c.toNat - 32)) := by
      rw [charLe_iff_toNat, ht]
      have ha : ('a').toNat = 97 := rfl
      rw [ha]
      omega
    simp [h97]
  · next h =>
    by_cases h1 : 'a' ≤ c
    · have h1' : 97 ≤ c.toNat := h1
      by_cases h2 : c ≤ 'z'
      · exact absurd ⟨h1', h2⟩ h
      · simp [h2]
    · simp [h1]

end PyStr

namespace RateLimiter

/-- C3: `RateLimiter.is_rate_limited` first discards the user's requests at
least one hour old, reports the user limited exactly when the pruned log
holds at least `max_per_minute` requests from the last minute or at least
`max_per_hour` requests from the last hour, and otherwise records the
current time and returns `(False, "OK")`; when limited, the log is left at
its pruned value. -/
theorem is_rate_limited_spec (requests : Requests) (user_id : String) (now : Int)
    (max_per_minute max_per_hour : Int) :
    ((is_rate_limited requests user_id now max_per_minute max_per_hour).1.1 = true ↔
      max_per_minute ≤ (((pruneHour now (requests user_id)).countP fun t => now - 60 < t : Nat) : Int) ∨
      max_per_hour ≤ (((pruneHour now (requests user_id)).countP fun t => now - 3600 < t : Nat) : Int)) ∧
    ((is_rate_limited requests user_id now max_per_minute max_per_hour).1.1 = false →
      (is_rate_limited requests user_id now max_per_minute max_per_hour).1.2 = "OK" ∧
      (is_rate_limited requests user_id now max_per_minute max_per_hour).2 user_id =
        pruneHour now (requests user_id) ++ [now]) ∧
    ((is_rate_limited requests user_id now max_per_minute max_per_hour).1.1 = true →
      (is_rate_limited requests user_id now max_per_minute max_per_hour).2 user_id =
        pruneHour now (requests user_id)) := by
  unfold is_rate_limited pruneHour
  dsimp only
  split_ifs with h1 h2 <;> simp_all

/-- Witness for `is_rate_limited_spec` at a fresh user. -/
theorem is_rate_limited_spec_witness :
    (is_rate_limited (fun _ => []) "alice" 1000 30 300).1.2 = "OK" ∧
    (is_rate_limited (fun _ => []) "alice" 1000 30 300).2 "alice" = [1000] := by
  have h := is_rate_limited_spec (fun _ => []) "alice" 1000 30 300
  exact h.2.1 (by decide)

/-- C10: after any call to `is_rate_limited`, every timestamp stored for
the user lies strictly within the past hour (assuming the log only holds
past timestamps), and a rate-limited call changes the log only by pruning
stale entries. -/
theorem is_rate_limited_requests_invariant (requests : Requests) (user_id : String)
    (now : Int) (max_per_minute max_per_hour : Int)
    (h : ∀ t ∈ requests user_id, t ≤ now) :
    (∀ t ∈ (is_rate_limited requests user_id now max_per_minute max_per_hour).2 user_id,
      0 ≤ now - t ∧ now - t < 3600) ∧
    ((is_rate_limited requests user_id now max_per_minute max_per_hour).1.1 = true →
      (is_rate_limited requests user_id now max_per_minute max_per_hour).2 user_id =
        (requests user_id).filter fun t => now - t < 3600) := by
  unfold is_rate_limited
  dsimp only
  split_ifs with h1 h2 <;> simp_all
  all_goals intro t ht
  all_goals
    first
      | exact ⟨h t ht.1, ht.2⟩
      | (rcases ht with ⟨hm, hl⟩ | rfl
         · exact ⟨h t hm, hl⟩
         · exact ⟨le_rfl, by omega⟩)

/-- Witness for `is_rate_limited_requests_invariant`. -/
theorem is_rate_limited_requests_invariant_witness :
    0 ≤ (100 : Int) - 50 ∧ (100 : Int) - 50 < 3600 :=
  (is_rate_limited_requests_invariant (fun _ => [50, -4000]) "u" 100 30 300
    (by decide)).1 50 (by decide)

end RateLimiter

namespace GuardRails

open PyStr

theorem grabDigits_spec {n : Nat} {l g : List Char} (h : grabDigits n l = some g) :
    g.length = n ∧ ∀ c ∈ g, isPyDigit c = true := by
  induction n generalizing l g with
  | zero =>
    unfold grabDigits at h
    cases h
    simp
  | succ n ih =>
    cases l with
    | nil => simp [grabDigits] at h
    | cons c cs =>
      unfold grabDigits at h
      by_cases hd : isPyDigit c
      · rw [if_pos hd] at h
        cases hg : grabDigits n cs with
        | none => rw [hg] at h; simp at h
        | some g' =>
          rw [hg] at h
          simp only [Option.map_some'] at h
          cases h
          obtain ⟨hlen, hall⟩ := ih hg
          refine ⟨by simp [hlen], ?_⟩
          intro x hx
          rcases List.mem_cons.mp hx with rfl | hx
          · exact hd
          · exact hall x hx
      · rw [if_neg hd] at h
        simp at h

theorem extractAt_spec {l g : List Char} (h : extractAt l = some g) :
    g.length = 4 ∧ ∀ c ∈ g, isPyDigit c = true := by
  unfold extractAt at h
  cases he : eatLitCI "order".data l with
  | none => rw [he] at h; simp at h
  | some l1 => rw [he] at h; exact grabDigits_spec h

theorem findOrderId_spec {l g : List Char} (h : findOrderId l = some g) :
    g.length = 4 ∧ ∀ c ∈ g, isPyDigit c = true := by
  induction l with
  | nil => simp [findOrderId] at h
  | cons c cs ih =>
    unfold findOrderId at h
    cases he : extractAt (c :: cs) with
    | some g' => rw [he] at h; cases h; exact extractAt_spec he
    | none => rw [he] at h; exact ih h

/-- C9 is false as stated: on `"show order ٠١٢٣"` the extraction pattern's
`\d` captures the four Arabic-Indic digits, the ASCII re-validation
`^[0-9]{4}$` fails, and `extract_and_validate_order_id` returns a non-`None`
order id together with `False` — the `(order_id, False)` branch is
reachable. -/
theorem extract_order_id_unicode_cex :
    (extract_and_validate_order_id "show order ٠١٢٣").1.isSome = true ∧
    (extract_and_validate_order_id "show order ٠١٢٣").2 = false := by decide

/-- C9 (amended): a non-`None` order id is always four characters of the
regex class `\d`, and the accompanying boolean is `True` exactly when those
four characters are ASCII digits `0-9` (so it can be `False` for non-ASCII
Unicode digits); when the query contains no `order <4 digits>` pattern the
result is `(None, False)`. -/
theorem extract_order_id_amended (query : String) :
    ((extract_and_validate_order_id query).1 = none →
      extract_and_validate_order_id query = (none, false)) ∧
    (∀ s : String, (extract_and_validate_order_id query).1 = some s →
      s.length = 4 ∧ (∀ c ∈ s.data, isPyDigit c = true) ∧
      ((extract_and_validate_order_id query).2 = true ↔ ∀ c ∈ s.data, c.isDigit = true)) := by
  unfold extract_and_validate_order_id
  cases hf : findOrderId query.data with
  | none => simp
  | some g =>
    obtain ⟨hlen, hdig⟩ := findOrderId_spec hf
    simp only [Option.some.injEq]
    constructor
    · intro hc; cases hc
    · intro s hs
      cases hs
      refine ⟨hlen, hdig, ?_⟩
      unfold pyMatchOrderId
      have h4 : (String.mk g).data.length = 4 := hlen
      rw [h4]
      simp [List.all_eq_true]

/-- Witness for `extract_order_id_amended` on a query with an ASCII order
id. -/
theorem extract_order_id_amended_witness :
    (extract_and_validate_order_id "What is the status of order 1001?").2 = true := by
  have h := extract_order_id_amended "What is the status of order 1001?"
  exact ((h.2 "1001" (by decide)).2.2).mpr (by decide)

theorem keywordHit_eq_false_iff (q : String) :
    keywordHit q = false ↔ ∀ k ∈ GuardRailsConfig.BLOCKED_KEYWORDS, strContains (pyUpper q) k = false := by
  unfold keywordHit
  rw [← Bool.not_eq_true, List.any_eq_true]
  simp

/-- A keyword containing an ASCII lowercase letter never occurs in the
upper-cased query. -/
theorem lowercase_kw_no_hit (q k : String) (hk : ∃ c ∈ k.data, isAsciiLower c = true) :
    strContains (pyUpper q) k = false := by
  obtain ⟨c, hc, hlow⟩ := hk
  rw [← Bool.not_eq_true]
  intro hcontains
  have hinf : k.data <:+: (pyUpper q).data := of_decide_eq_true hcontains
  have hmem : c ∈ (pyUpper q).data := hinf.subset hc
  unfold pyUpper at hmem
  obtain ⟨a, _, ha⟩ := List.mem_map.mp hmem
  rw [← ha] at hlow
  rw [isAsciiLower_pyUpperChar a] at hlow
  cases hlow

end GuardRails

namespace GuardRails

open PyStr

/-- C2 is false as stated: `"give me the passwd"` has valid length and
contains the blocklist entry `passwd`, yet `validate_input` returns
`(True, "VALIDATED")` and leaves `blocked_queries` unchanged, because the
all-lowercase entry is compared against the upper-cased query. -/
theorem validate_input_lowercase_keyword_cex :
    strContains "give me the passwd" "passwd" = true ∧
    GuardRailsConfig.MIN_QUERY_LENGTH ≤ ("give me the passwd").length ∧
    ("give me the passwd").length ≤ GuardRailsConfig.MAX_QUERY_LENGTH ∧
    (validate_input (fun _ => [], [], []) "give me the passwd" "u" 0).1 = (true, "VALIDATED") ∧
    (validate_input (fun _ => [], [], []) "give me the passwd" "u" 0).2.2.1 = [] := by
  decide

/-- C2 (amended): for a query of valid length from a user under the rate
limits, `validate_input` returns `False` with the prohibited-content
message exactly when the UPPER-CASED query contains a blocklist entry, and
appends the query to `blocked_queries` exactly in that case; the
all-lowercase entries `passwd`, `shadow` and `/etc/` can never match the
upper-cased query, so they never trigger blocking. -/
theorem validate_input_blocked_keyword :
    (∀ (st : GRState) (q u : String) (now : Int),
      GuardRailsConfig.MIN_QUERY_LENGTH ≤ q.length →
      q.length ≤ GuardRailsConfig.MAX_QUERY_LENGTH →
      (RateLimiter.is_rate_limited st.1 u now GuardRailsConfig.MAX_REQUESTS_PER_MINUTE
        GuardRailsConfig.MAX_REQUESTS_PER_HOUR).1.1 = false →
      ((validate_input st q u now).1 =
          (false, "⚠️ Query contains prohibited content. Only order-related queries are allowed.") ↔
        keywordHit q = true) ∧
      (validate_input st q u now).2.2.1 =
        (if keywordHit q then st.2.1 ++ [q] else st.2.1)) ∧
    (∀ q : String, ∀ k ∈ (["passwd", "shadow", "/etc/"] : List String),
      strContains (pyUpper q) k = false) := by
  constructor
  · intro st q u now hmin hmax hrate
    unfold validate_input
    dsimp only
    rw [if_neg (Nat.not_lt.mpr hmin), if_neg (Nat.not_lt.mpr hmax), hrate]
    by_cases hkw : keywordHit q = true
    · rw [hkw]
      simp
    · rw [Bool.not_eq_true] at hkw
      rw [hkw]
      by_cases hsus : suspiciousMatch q = true
      · rw [hsus]
        constructor
        · constructor
          · intro hcontra
            rw [if_neg Bool.false_ne_true, if_neg Bool.false_ne_true, if_pos rfl] at hcontra
            dsimp only at hcontra
            exact absurd hcontra (by decide)
          · intro hcontra
            exact Bool.noConfusion hcontra
        · rw [if_neg Bool.false_ne_true, if_neg Bool.false_ne_true, if_pos rfl,
            if_neg Bool.false_ne_true]
      · rw [Bool.not_eq_true] at hsus
        rw [hsus]
        constructor
        · constructor
          · intro hcontra
            rw [if_neg Bool.false_ne_true, if_neg Bool.false_ne_true,
              if_neg Bool.false_ne_true] at hcontra
            dsimp only at hcontra
            exact absurd hcontra (by decide)
          · intro hcontra
            exact Bool.noConfusion hcontra
        · rw [if_neg Bool.false_ne_true, if_neg Bool.false_ne_true, if_neg Bool.false_ne_true,
            if_neg Bool.false_ne_true]
  · intro q k hk
    fin_cases hk
    · exact lowercase_kw_no_hit q "passwd" (by decide)
    · exact lowercase_kw_no_hit q "shadow" (by decide)
    · exact lowercase_kw_no_hit q "/etc/" (by decide)

/-- Witness for `validate_input_blocked_keyword` on a SQL-injection
query. -/
theorem validate_input_blocked_keyword_witness :
    (validate_input (fun _ => [], [], []) "DROP TABLE orders; --" "u" 0).1 =
      (false, "⚠️ Query contains prohibited content. Only order-related queries are allowed.") ∧
    (validate_input (fun _ => [], [], []) "DROP TABLE orders; --" "u" 0).2.2.1 =
      [] ++ ["DROP TABLE orders; --"] := by
  have h := validate_input_blocked_keyword.1 (fun _ => [], [], []) "DROP TABLE orders; --"
    "u" 0 (by decide) (by decide) (by decide)
  refine ⟨h.1.mpr (by decide), ?_⟩
  rw [h.2]
  decide

/-- C1: `validate_input` returns `(True, "VALIDATED")` exactly when the
query length is between `MIN_QUERY_LENGTH` and `MAX_QUERY_LENGTH`, the
user is not rate-limited, no blocklist entry occurs in the upper-cased
query, and none of the three suspicious patterns matches; in every other
case the returned flag is `False`. -/
theorem validate_input_validated_iff (st : GRState) (q u : String) (now : Int) :
    ((validate_input st q u now).1 = (true, "VALIDATED") ↔
      (GuardRailsConfig.MIN_QUERY_LENGTH ≤ q.length ∧
       q.length ≤ GuardRailsConfig.MAX_QUERY_LENGTH ∧
       (RateLimiter.is_rate_limited st.1 u now GuardRailsConfig.MAX_REQUESTS_PER_MINUTE
         GuardRailsConfig.MAX_REQUESTS_PER_HOUR).1.1 = false ∧
       (∀ k ∈ GuardRailsConfig.BLOCKED_KEYWORDS, strContains (pyUpper q) k = false) ∧
       suspiciousMatch q = false)) ∧
    ((validate_input st q u now).1.1 = false ∨
      (validate_input st q u now).1 = (true, "VALIDATED")) := by
  unfold validate_input
  dsimp only
  split_ifs with h1 h2 h3 h4 h5 <;>
    simp_all [← keywordHit_eq_false_iff]

/-- Witness for `validate_input_validated_iff`: a benign order query
validates. -/
theorem validate_input_validated_iff_witness :
    (validate_input (fun _ => [], [], []) "What is the status of order 1001?" "u" 0).1 =
      (true, "VALIDATED") :=
  (validate_input_validated_iff (fun _ => [], [], []) "What is the status of order 1001?"
    "u" 0).1.mpr (by decide)

end GuardRails

namespace CalculatorMcp

theorem floatDivPos_error_msg {a b : Nat} {e : String}
    (h : floatDivPos a b = Except.error e) :
    e = "integer division result too large for a float" := by
  unfold floatDivPos at h
  dsimp only at h
  split_ifs at h <;>
    first
      | exact Except.noConfusion h
      | (injection h with h0; exact h0.symm)

theorem pyFloatDiv_error_msg {x y : Int} {e : String}
    (h : pyFloatDiv x y = Except.error e) :
    e = "integer division result too large for a float" := by
  unfold pyFloatDiv at h
  by_cases hx : x = 0
  · rw [if_pos hx] at h
    exact Except.noConfusion h
  · rw [if_neg hx] at h
    cases hfd : floatDivPos x.natAbs y.natAbs with
    | error e2 =>
      rw [hfd] at h
      injection h with h0
      exact h0 ▸ floatDivPos_error_msg hfd
    | ok v =>
      rw [hfd] at h
      exact Except.noConfusion h

theorem floatDivPos_dyadic {a b : Nat} {v : ℚ} (h : floatDivPos a b = Except.ok v) :
    ∃ (n : Int) (k : Nat), v = (n : ℚ) / 2 ^ k := by
  unfold floatDivPos at h
  dsimp only at h
  by_cases h1 : floorLog2 a b < -1022
  · rw [if_pos h1] at h
    injection h with h0
    exact ⟨roundHalfEvenDiv (a * 2 ^ 1074) b, 1074, by rw [← h0, Int.cast_natCast]⟩
  · rw [if_neg h1] at h
    by_cases h2 : (0 : Int) ≤ 52 - floorLog2 a b
    · rw [if_pos h2] at h
      by_cases h3 : (2 : ℚ) ^ 1024 ≤
          (roundHalfEvenDiv (a * 2 ^ (52 - floorLog2 a b).toNat) b : ℚ) /
            2 ^ (52 - floorLog2 a b).toNat
      · rw [if_pos h3] at h
        exact Except.noConfusion h
      · rw [if_neg h3] at h
        injection h with h0
        exact ⟨roundHalfEvenDiv (a * 2 ^ (52 - floorLog2 a b).toNat) b,
          (52 - floorLog2 a b).toNat, by rw [← h0, Int.cast_natCast]⟩
    · rw [if_neg h2] at h
      by_cases h3 : (2 : ℚ) ^ 1024 ≤
          (roundHalfEvenDiv a (b * 2 ^ (-(52 - floorLog2 a b)).toNat) : ℚ) *
            2 ^ (-(52 - floorLog2 a b)).toNat
      · rw [if_pos h3] at h
        exact Except.noConfusion h
      · rw [if_neg h3] at h
        injection h with h0
        refine ⟨roundHalfEvenDiv a (b * 2 ^ (-(52 - floorLog2 a b)).toNat) *
          2 ^ (-(52 - floorLog2 a b)).toNat, 0, ?_⟩
        rw [← h0]
        push_cast
        ring

theorem pyFloatDiv_dyadic {x y : Int} {q : ℚ} (h : pyFloatDiv x y = Except.ok q) :
    ∃ (n : Int) (k : Nat), q = (n : ℚ) / 2 ^ k := by
  unfold pyFloatDiv at h
  by_cases hx : x = 0
  · rw [if_pos hx] at h
    injection h with h0
    exact ⟨0, 0, by rw [← h0]; norm_num⟩
  · rw [if_neg hx] at h
    cases hfd : floatDivPos x.natAbs y.natAbs with
    | error e =>
      rw [hfd] at h
      exact Except.noConfusion h
    | ok v =>
      rw [hfd] at h
      injection h with h0
      obtain ⟨n, k, hv⟩ := floatDivPos_dyadic hfd
      rw [← h0]
      by_cases hs : (0 : Int) < x * y
      · rw [if_pos hs]
        exact ⟨n, k, hv⟩
      · rw [if_neg hs]
        refine ⟨-n, k, ?_⟩
        rw [hv]
        push_cast
        ring

theorem not_overflow_of_lt_four {v : ℚ} (h : v < 4) : ¬ (2 : ℚ) ^ 1024 ≤ v := by
  intro hle
  have hp : (2 : ℚ) ^ 2 ≤ 2 ^ 1024 := by
    apply pow_le_pow_right₀ (by norm_num)
    norm_num
  have h4 : (2 : ℚ) ^ 2 = 4 := by norm_num
  linarith

/-- C5 is false as stated: `divide` performs Python's float division,
which rounds; on `(1, 3)` it returns the binary64 value
`6004799503160661 / 2^54`, which is not the quotient `1/3`. -/
theorem calculator_divide_rounds_cex :
    divide 1 3 = Except.ok ((6004799503160661 : ℚ) / 2 ^ 54) ∧
    divide 1 3 ≠ Except.ok ((1 : ℚ) / 3) := by
  have hfd : floatDivPos 1 3 = Except.ok ((6004799503160661 : ℚ) / 2 ^ 54) := by
    unfold floatDivPos
    dsimp only
    rw [show floorLog2 1 3 = -2 from rfl]
    rw [if_neg (by norm_num : ¬ (-2 : Int) < -1022)]
    rw [if_pos (by norm_num : (0 : Int) ≤ 52 - -2)]
    rw [show ((52 : Int) - -2).toNat = 54 from rfl]
    rw [show roundHalfEvenDiv (1 * 2 ^ 54) 3 = 6004799503160661 from rfl]
    rw [if_neg (not_overflow_of_lt_four (by norm_num))]
    norm_cast
  have h1 : divide 1 3 = Except.ok ((6004799503160661 : ℚ) / 2 ^ 54) := by
    unfold divide
    rw [if_neg (by norm_num : ¬ (3 : Int) = 0)]
    unfold pyFloatDiv
    rw [if_neg (by norm_num : ¬ (1 : Int) = 0)]
    rw [show (1 : Int).natAbs = 1 from rfl, show (3 : Int).natAbs = 3 from rfl]
    rw [hfd]
    dsimp only
    rw [if_pos (by norm_num : (0 : Int) < 1 * 3)]
  refine ⟨h1, ?_⟩
  rw [h1]
  intro hc
  injection hc with h0
  have hne : ((6004799503160661 : ℚ) / 2 ^ 54) ≠ 1 / 3 := by norm_num
  exact hne h0

/-- C5 (amended): `add`, `subtract` and `multiply` compute exact integer
arithmetic; `divide` raises `ValueError` exactly when `y = 0`, and
otherwise performs Python's float division of `x` by `y` — the correctly
rounded binary64 quotient, or an `OverflowError` beyond the double range —
so every value it returns is a dyadic rational `n / 2^k`, and a non-dyadic
quotient such as `1/3` is never returned exactly. -/
theorem calculator_exact (x y : Int) :
    add x y = x + y ∧ subtract x y = x - y ∧ multiply x y = x * y ∧
    (divide x y = Except.error "Cannot divide by zero" ↔ y = 0) ∧
    (y ≠ 0 → divide x y = pyFloatDiv x y) ∧
    (∀ q : ℚ, divide x y = Except.ok q → ∃ (n : Int) (k : Nat), q = (n : ℚ) / 2 ^ k) := by
  refine ⟨rfl, rfl, rfl, ?_, ?_, ?_⟩
  · unfold divide
    split_ifs with h
    · simp [h]
    · constructor
      · intro hc
        exact absurd (pyFloatDiv_error_msg hc) (by decide)
      · intro hy
        exact absurd hy h
  · intro h
    unfold divide
    rw [if_neg h]
  · intro q hq
    unfold divide at hq
    by_cases hy : y = 0
    · rw [if_pos hy] at hq
      exact Except.noConfusion hq
    · rw [if_neg hy] at hq
      exact pyFloatDiv_dyadic hq

/-- Witness for `calculator_exact`: an exactly representable quotient is
returned exactly. -/
theorem calculator_exact_witness : divide 7 2 = Except.ok ((7 : ℚ) / 2) := by
  have h := (calculator_exact 7 2).2.2.2.2.1 (by norm_num)
  rw [h]
  have hfd : floatDivPos 7 2 = Except.ok ((7 : ℚ) / 2) := by
    unfold floatDivPos
    dsimp only
    rw [show floorLog2 7 2 = 1 from rfl]
    rw [if_neg (by norm_num : ¬ (1 : Int) < -1022)]
    rw [if_pos (by norm_num : (0 : Int) ≤ 52 - 1)]
    rw [show ((52 : Int) - 1).toNat = 51 from rfl]
    rw [show roundHalfEvenDiv (7 * 2 ^ 51) 2 = 7881299347898368 from rfl]
    rw [show (((7881299347898368 : ℕ) : ℚ)) / 2 ^ 51 = (7 : ℚ) / 2 by push_cast; norm_num]
    rw [if_neg (not_overflow_of_lt_four (by norm_num))]
  unfold pyFloatDiv
  rw [if_neg (by norm_num : ¬ (7 : Int) = 0)]
  rw [show (7 : Int).natAbs = 7 from rfl, show (2 : Int).natAbs = 2 from rfl]
  rw [hfd]
  dsimp only
  rw [if_pos (by norm_num : (0 : Int) < 7 * 2)]

end CalculatorMcp

namespace Mutiagnet

/-- C8: `process_customer_query_multiagent` returns `None` exactly when
guard-rail input validation fails or the swarm invocation raises; it
returns the swarm result exactly when validation passed and the swarm call
completed. -/
theorem process_query_guarded {α : Type} (st : GuardRails.GRState) (q u : String)
    (now : Int) (sw : Except String α) :
    ((process_customer_query_multiagent st q u now sw).1 = none ↔
      (GuardRails.validate_input st q u now).1.1 = false ∨ ∃ e, sw = Except.error e) ∧
    (∀ r : α, (GuardRails.validate_input st q u now).1.1 = true → sw = Except.ok r →
      (process_customer_query_multiagent st q u now sw).1 = some r) := by
  unfold process_customer_query_multiagent
  dsimp only
  by_cases hv : (GuardRails.validate_input st q u now).1.1 = false <;>
    cases sw <;> simp_all

/-- Witness for `process_query_guarded`: a validated query returns the
swarm result. -/
theorem process_query_guarded_witness :
    (process_customer_query_multiagent (fun _ => [], [], [])
      "Where is order 1002?" "u" 0 (Except.ok 42)).1 = some 42 :=
  (process_query_guarded (fun _ => [], [], []) "Where is order 1002?" "u" 0
    (Except.ok 42)).2 42 (by decide) rfl

end Mutiagnet

namespace PySub

open PyStr

theorem eatP_spec {p : Char → Bool} {l r : List Char} (h : eatP p l = some r) :
    r.length < l.length ∧ r <:+ l := by
  cases l with
  | nil => simp [eatP] at h
  | cons c cs =>
    simp only [eatP] at h
    by_cases hp : p c = true
    · rw [if_pos hp] at h
      cases h
      exact ⟨by simp, List.suffix_cons _ _⟩
    · rw [if_neg hp] at h
      cases h

theorem eatPlus_spec {p : Char → Bool} {l r : List Char} (h : eatPlus p l = some r) :
    r.length < l.length ∧ r <:+ l := by
  cases l with
  | nil => simp [eatPlus] at h
  | cons c cs =>
    simp only [eatPlus] at h
    by_cases hp : p c = true
    · rw [if_pos hp] at h
      cases h
      constructor
      · have := (List.dropWhile_suffix (l := cs) p).length_le
        simp only [List.length_cons]
        omega
      · exact (List.dropWhile_suffix p).trans (List.suffix_cons c cs)
    · rw [if_neg hp] at h
      cases h

theorem eatDigits_spec : ∀ {n : Nat} {l r : List Char}, eatDigits n l = some r →
    l.length = r.length + n ∧ r <:+ l := by
  intro n
  induction n with
  | zero =>
    intro l r h
    cases h
    exact ⟨rfl, List.suffix_refl _⟩
  | succ n ih =>
    intro l r h
    cases l with
    | nil => simp [eatDigits] at h
    | cons c cs =>
      simp only [eatDigits] at h
      by_cases hd : isPyDigit c = true
      · rw [if_pos hd] at h
        obtain ⟨hl, hs⟩ := ih h
        exact ⟨by simp only [List.length_cons]; omega, hs.trans (List.suffix_cons c cs)⟩
      · rw [if_neg hd] at h
        cases h

theorem eatLitCI_spec : ∀ {lit l r : List Char}, eatLitCI lit l = some r →
    l.length = r.length + lit.length ∧ r <:+ l := by
  intro lit
  induction lit with
  | nil =>
    intro l r h
    cases h
    exact ⟨by simp, List.suffix_refl _⟩
  | cons a as ih =>
    intro l r h
    cases l with
    | nil => simp [eatLitCI] at h
    | cons c cs =>
      simp only [eatLitCI] at h
      by_cases hc : ciEq a c = true
      · rw [if_pos hc] at h
        obtain ⟨hl, hs⟩ := ih h
        exact ⟨by simp only [List.length_cons]; omega, hs.trans (List.suffix_cons c cs)⟩
      · rw [if_neg hc] at h
        cases h

theorem optC_sound {p : Char → Bool} {l r : List Char}
    {k : List Char → Option (List Char)}
    (hk : ∀ l', l' <:+ l → ∀ r', k l' = some r' → r' <:+ l)
    (h : optC p l k = some r) : r <:+ l := by
  cases l with
  | nil =>
    simp only [optC] at h
    exact hk [] (List.suffix_refl _) r h
  | cons c cs =>
    simp only [optC] at h
    by_cases hp : p c = true
    · rw [if_pos hp] at h
      cases hkc : k cs with
      | some r2 =>
        rw [hkc] at h
        cases h
        exact hk cs (List.suffix_cons _ _) _ hkc
      | none =>
        rw [hkc] at h
        exact hk (c :: cs) (List.suffix_refl _) r h
    · rw [if_neg hp] at h
      exact hk (c :: cs) (List.suffix_refl _) r h

theorem tryTld_suffix {r out : List Char} (h : tryTld r = some out) : out <:+ r := by
  unfold tryTld at h
  split at h
  · next r2 =>
    dsimp only at h
    split at h
    · cases h
      exact (List.drop_suffix _ _).trans (List.suffix_cons '.' r2)
    · cases h
  · cases h

theorem emailTail_suffix : ∀ {k : Nat} {l r : List Char}, emailTail k l = some r → r <:+ l := by
  intro k
  induction k with
  | zero => intro l r h; simp [emailTail] at h
  | succ j ih =>
    intro l r h
    unfold emailTail at h
    cases ht : tryTld (l.drop (j + 1)) with
    | some r2 =>
      rw [ht] at h
      cases h
      exact (tryTld_suffix ht).trans (List.drop_suffix _ _)
    | none =>
      rw [ht] at h
      exact ih h

theorem emailMatchAt_consuming : Consuming emailMatchAt := by
  intro prev l rest h
  simp only [emailMatchAt] at h
  cases h1 : eatPlus emailC1 l with
  | none => simp [h1] at h
  | some l1 =>
    simp only [h1] at h
    obtain ⟨hlen1, hsuf1⟩ := eatPlus_spec h1
    cases h2 : eatP (fun c => c = '@') l1 with
    | none => simp [h2] at h
    | some l2 =>
      simp only [h2] at h
      obtain ⟨hlen2, hsuf2⟩ := eatP_spec h2
      have h3 := emailTail_suffix h
      have hsuf : rest <:+ l := ((h3.trans hsuf2).trans hsuf1)
      have hle : rest.length ≤ l2.length := h3.length_le
      exact ⟨by omega, hsuf⟩

theorem phoneMatchAt_consuming : Consuming phoneMatchAt := by
  intro prev l rest h
  simp only [phoneMatchAt] at h
  by_cases hb : boundaryBefore prev = true
  · rw [if_pos hb] at h
    cases h3 : eatDigits 3 l with
    | none => simp [h3] at h
    | some l1 =>
      simp only [h3] at h
      obtain ⟨hl1, hs1⟩ := eatDigits_spec h3
      have hrest : rest <:+ l1 := by
        refine optC_sound ?_ h
        intro l2 hl2 r2 hk2
        cases h4 : eatDigits 3 l2 with
        | none => simp [h4] at hk2
        | some l3 =>
          simp only [h4] at hk2
          obtain ⟨hl3, hs3⟩ := eatDigits_spec h4
          have hr2 : r2 <:+ l3 := by
            refine optC_sound ?_ hk2
            intro l4 hl4 r4 hk4
            cases h5 : eatDigits 4 l4 with
            | none => simp [h5] at hk4
            | some l5 =>
              simp only [h5] at hk4
              obtain ⟨hl5, hs5⟩ := eatDigits_spec h5
              by_cases hw : noWordAhead l5 = true
              · rw [if_pos hw] at hk4
                cases hk4
                exact hs5.trans hl4
              · rw [if_neg hw] at hk4
                cases hk4
          exact ((hr2.trans hs3).trans hl2)
      have := hrest.length_le
      exact ⟨by omega, hrest.trans hs1⟩
  · rw [if_neg hb] at h
    cases h

theorem ccMatchAt_consuming : Consuming ccMatchAt := by
  intro prev l rest h
  simp only [ccMatchAt] at h
  by_cases hb : boundaryBefore prev = true
  · rw [if_pos hb] at h
    cases h3 : eatDigits 4 l with
    | none => simp [h3] at h
    | some l1 =>
      simp only [h3] at h
      obtain ⟨hl1, hs1⟩ := eatDigits_spec h3
      have hrest : rest <:+ l1 := by
        refine optC_sound ?_ h
        intro l2 hl2 r2 hk2
        cases h4 : eatDigits 4 l2 with
        | none => simp [h4] at hk2
        | some l3 =>
          simp only [h4] at hk2
          obtain ⟨hl3, hs3⟩ := eatDigits_spec h4
          have hr2 : r2 <:+ l3 := by
            refine optC_sound ?_ hk2
            intro l4 hl4 r4 hk4
            cases h5 : eatDigits 4 l4 with
            | none => simp [h5] at hk4
            | some l5 =>
              simp only [h5] at hk4
              obtain ⟨hl5, hs5⟩ := eatDigits_spec h5
              have hr4 : r4 <:+ l5 := by
                refine optC_sound ?_ hk4
                intro l6 hl6 r6 hk6
                cases h7 : eatDigits 4 l6 with
                | none => simp [h7] at hk6
                | some l7 =>
                  simp only [h7] at hk6
                  obtain ⟨hl7, hs7⟩ := eatDigits_spec h7
                  by_cases hw : noWordAhead l7 = true
                  · rw [if_pos hw] at hk6
                    cases hk6
                    exact hs7.trans hl6
                  · rw [if_neg hw] at hk6
                    cases hk6
              exact (hr4.trans hs5).trans hl4
          exact (hr2.trans hs3).trans hl2
      have := hrest.length_le
      exact ⟨by omega, hrest.trans hs1⟩
  · rw [if_neg hb] at h
    cases h

theorem lazyFind_suffix : ∀ {lit l r : List Char}, lazyFind lit l = some r → r <:+ l := by
  intro lit l
  induction l with
  | nil => intro r h; simp [lazyFind] at h
  | cons c cs ih =>
    intro r h
    simp only [lazyFind] at h
    cases he : eatLitCI lit (c :: cs) with
    | some r2 =>
      rw [he] at h
      cases h
      exact (eatLitCI_spec he).2
    | none =>
      rw [he] at h
      by_cases hn : c = '\n'
      · rw [if_pos hn] at h
        cases h
      · rw [if_neg hn] at h
        exact (ih h).trans (List.suffix_cons c cs)

theorem scriptMatchAt_consuming : Consuming scriptMatchAt := by
  intro prev l rest h
  simp only [scriptMatchAt] at h
  cases h1 : eatLitCI "<script".data l with
  | none => simp [h1] at h
  | some l1 =>
    simp only [h1] at h
    obtain ⟨hl1, hs1⟩ := eatLitCI_spec h1
    split at h
    · simp at h
    · rename_i l3 h2
      obtain ⟨hl3, hs3⟩ := eatP_spec h2
      have h4 := lazyFind_suffix h
      have hsw := (List.dropWhile_suffix (l := l1) fun c => decide (c ≠ '>')).length_le
      have hsuf : rest <:+ l :=
        (((h4.trans hs3).trans (List.dropWhile_suffix _)).trans hs1)
      have hlit : ("<script".data).length = 7 := rfl
      have h4l := h4.length_le
      exact ⟨by omega, hsuf⟩

theorem jsMatchAt_consuming : Consuming jsMatchAt := by
  intro prev l rest h
  have h' : eatLitCI "javascript:".data l = some rest := h
  obtain ⟨hl, hs⟩ := eatLitCI_spec h'
  have hlit : ("javascript:".data).length = 11 := rfl
  exact ⟨by omega, hs⟩

theorem onerrorMatchAt_consuming : Consuming onerrorMatchAt := by
  intro prev l rest h
  have h' : eatLitCI "onerror=".data l = some rest := h
  obtain ⟨hl, hs⟩ := eatLitCI_spec h'
  have hlit : ("onerror=".data).length = 8 := rfl
  exact ⟨by omega, hs⟩

theorem subScan_spec {matchAt : Matcher} {repl : List Char → List Char}
    (hc : Consuming matchAt) :
    ∀ (fuel : Nat) (prev : Option Char) (l : List Char), l.length ≤ fuel →
      SubSpec matchAt repl prev l (subScan matchAt repl fuel prev l) := by
  intro fuel
  induction fuel with
  | zero =>
    intro prev l hl
    have h0 : l = [] := List.eq_nil_of_length_eq_zero (Nat.le_zero.mp hl)
    subst h0
    exact SubSpec.nil prev
  | succ fuel ih =>
    intro prev l hl
    cases l with
    | nil => exact SubSpec.nil prev
    | cons c cs =>
      unfold subScan
      cases hm : matchAt prev (c :: cs) with
      | none =>
        refine SubSpec.noMatch prev c cs _ hm (ih (some c) cs ?_)
        simp only [List.length_cons] at hl
        omega
      | some rest =>
        obtain ⟨hlt, hsuf⟩ := hc prev (c :: cs) rest hm
        obtain ⟨t, htr⟩ := hsuf
        have hm_eq : (c :: cs).take ((c :: cs).length - rest.length) = t := by
          rw [← htr]
          have hlen : (t ++ rest).length - rest.length = t.length := by
            simp [List.length_append]
          rw [hlen]
          exact List.take_left t rest
        have hne : t ≠ [] := by
          intro h0
          subst h0
          simp only [List.nil_append] at htr
          rw [htr] at hlt
          exact lt_irrefl _ hlt
        have hrec := ih (some (t.getLastD c)) rest (by
          have h1 := hlt
          simp only [List.length_cons] at hl h1
          omega)
        have hgoal := @SubSpec.matched matchAt repl prev c cs t rest
          (subScan matchAt repl fuel (some (t.getLastD c)) rest) hm htr.symm hne hrec
        dsimp only
        rw [if_pos hlt]
        rw [hm_eq]
        exact hgoal

theorem pySub_spec {matchAt : Matcher} {repl : List Char → List Char}
    (hc : Consuming matchAt) (l : List Char) :
    SubSpec matchAt repl none l (pySub matchAt repl l) :=
  subScan_spec hc l.length none l le_rfl

end PySub

namespace GuardRails

open PyStr PySub

/-- C4: `sanitize_output` is the six-pass pipeline that masks each
credit-card match by `****-****-****-` plus its last four characters, each
phone match by its first three characters, `-***-`, and its last four
characters, each e-mail match by its first two characters, five asterisks
and its characters from index 7 on, and removes `<script>...</script>`
blocks, `javascript:` and `onerror=` fragments; and each pass replaces
every leftmost non-overlapping match of its pattern (`SubSpec`). -/
theorem sanitize_output_spec (s : String) :
    (sanitize_output s).data =
      pySub onerrorMatchAt (fun _ => [])
        (pySub jsMatchAt (fun _ => [])
          (pySub scriptMatchAt (fun _ => [])
            (pySub ccMatchAt (fun m => "****-****-****-".data ++ m.drop (m.length - 4))
              (pySub phoneMatchAt (fun m => m.take 3 ++ "-***-".data ++ m.drop (m.length - 4))
                (pySub emailMatchAt (fun m => m.take 2 ++ List.replicate 5 '*' ++ m.drop 7)
                  s.data))))) ∧
    (∀ l, SubSpec emailMatchAt emailRepl none l (pySub emailMatchAt emailRepl l)) ∧
    (∀ l, SubSpec phoneMatchAt phoneRepl none l (pySub phoneMatchAt phoneRepl l)) ∧
    (∀ l, SubSpec ccMatchAt ccRepl none l (pySub ccMatchAt ccRepl l)) ∧
    (∀ l, SubSpec scriptMatchAt dropRepl none l (pySub scriptMatchAt dropRepl l)) ∧
    (∀ l, SubSpec jsMatchAt dropRepl none l (pySub jsMatchAt dropRepl l)) ∧
    (∀ l, SubSpec onerrorMatchAt dropRepl none l (pySub onerrorMatchAt dropRepl l)) := by
  refine ⟨rfl, ?_, ?_, ?_, ?_, ?_, ?_⟩
  · exact fun l => pySub_spec emailMatchAt_consuming l
  · exact fun l => pySub_spec phoneMatchAt_consuming l
  · exact fun l => pySub_spec ccMatchAt_consuming l
  · exact fun l => pySub_spec scriptMatchAt_consuming l
  · exact fun l => pySub_spec jsMatchAt_consuming l
  · exact fun l => pySub_spec onerrorMatchAt_consuming l

end GuardRails

namespace Orders

theorem findRow_eq_none_iff (oid : String) (rows : List OrderRow) :
    findRow oid rows = none ↔ ∀ row ∈ rows, row.order_id ≠ oid := by
  induction rows with
  | nil => simp [findRow]
  | cons r rs ih =>
    simp only [findRow]
    by_cases hr : r.order_id = oid
    · rw [if_pos hr]
      constructor
      · intro h
        exact absurd h (by simp)
      · intro h
        exact absurd hr (h r (List.mem_cons_self r rs))
    · rw [if_neg hr, ih]
      constructor
      · intro h row hmem
        rcases List.mem_cons.mp hmem with rfl | hmem2
        · exact hr
        · exact h row hmem2
      · intro h row hmem
        exact h row (List.mem_cons_of_mem r hmem)

theorem findRow_eq_some_iff (oid : String) (rows : List OrderRow) (row : OrderRow) :
    findRow oid rows = some row ↔
      row.order_id = oid ∧
        ∃ pre post, rows = pre ++ row :: post ∧ ∀ x ∈ pre, x.order_id ≠ oid := by
  induction rows with
  | nil =>
    simp only [findRow]
    constructor
    · intro h
      exact absurd h (by simp)
    · intro ⟨_, pre, post, hsplit, _⟩
      exact absurd hsplit (by simp)
  | cons r rs ih =>
    simp only [findRow]
    by_cases hr : r.order_id = oid
    · rw [if_pos hr]
      constructor
      · intro h
        cases h
        exact ⟨hr, [], rs, rfl, by simp⟩
      · intro ⟨hrow, pre, post, hsplit, hpre⟩
        cases pre with
        | nil =>
          simp only [List.nil_append, List.cons.injEq] at hsplit
          rw [hsplit.1]
        | cons p ps =>
          simp only [List.cons_append, List.cons.injEq] at hsplit
          exact absurd (hsplit.1 ▸ hr) (hpre p (List.mem_cons_self p ps))
    · rw [if_neg hr, ih]
      constructor
      · intro ⟨hrow, pre, post, hsplit, hpre⟩
        refine ⟨hrow, r :: pre, post, by rw [hsplit, List.cons_append], ?_⟩
        intro x hx
        rcases List.mem_cons.mp hx with rfl | h2
        · exact hr
        · exact hpre x h2
      · intro ⟨hrow, pre, post, hsplit, hpre⟩
        cases pre with
        | nil =>
          simp only [List.nil_append, List.cons.injEq] at hsplit
          rw [hsplit.1] at hr
          exact absurd hrow hr
        | cons p ps =>
          simp only [List.cons_append, List.cons.injEq] at hsplit
          obtain ⟨hrp, hrs⟩ := hsplit
          refine ⟨hrow, ps, post, hrs, ?_⟩
          intro x hx
          exact hpre x (List.mem_cons_of_mem p hx)

/-- C6: the CSV lookup returns the first row, in file order, whose
`order_id` column equals the given id exactly, `None` when no row matches,
and the `{"error": msg}` dict when reading the CSV raised; and
`load_order_data` is the same function as `find_order_by_id`. -/
theorem find_order_by_id_spec :
    (∀ (csv : CsvData) (oid : String), load_order_data csv oid = find_order_by_id csv oid) ∧
    (∀ (e oid : String), find_order_by_id (Except.error e) oid = CsvLookup.err e) ∧
    (∀ (rows : List OrderRow) (oid : String),
      (find_order_by_id (Except.ok rows) oid = CsvLookup.notFound ↔
        ∀ row ∈ rows, row.order_id ≠ oid) ∧
      (∀ row : OrderRow, find_order_by_id (Except.ok rows) oid = CsvLookup.found row ↔
        (row.order_id = oid ∧
          ∃ pre post, rows = pre ++ row :: post ∧ ∀ x ∈ pre, x.order_id ≠ oid))) := by
  refine ⟨?_, ?_, ?_⟩
  · intro csv oid
    cases csv <;> rfl
  · intro e oid
    rfl
  · intro rows oid
    unfold find_order_by_id
    dsimp only
    cases hf : findRow oid rows with
    | none =>
      constructor
      · exact ⟨fun _ => (findRow_eq_none_iff oid rows).mp hf, fun _ => rfl⟩
      · intro row
        constructor
        · intro hcontra
          cases hcontra
        · intro hex
          have hsome := (findRow_eq_some_iff oid rows row).mpr hex
          rw [hf] at hsome
          cases hsome
    | some r0 =>
      constructor
      · constructor
        · intro hcontra
          cases hcontra
        · intro hall
          have hnone := (findRow_eq_none_iff oid rows).mpr hall
          rw [hf] at hnone
          cases hnone
      · intro row
        constructor
        · intro heq
          injection heq with h0
          subst h0
          exact (findRow_eq_some_iff oid rows r0).mp hf
        · intro hex
          have hsome := (findRow_eq_some_iff oid rows row).mpr hex
          rw [hf] at hsome
          injection hsome with h0
          rw [h0]

/-- Witness for `find_order_by_id_spec`: a one-row file is searched and the
row found. -/
theorem find_order_by_id_spec_witness :
    find_order_by_id
      (Except.ok [⟨"1001", "e", "d", "s", "i", "t", "c", "tr", "ca", "ed", "sa", "r", "n"⟩])
      "1001" =
      CsvLookup.found ⟨"1001", "e", "d", "s", "i", "t", "c", "tr", "ca", "ed", "sa", "r", "n"⟩ := by
  have h := find_order_by_id_spec
  exact ((h.2.2 [⟨"1001", "e", "d", "s", "i", "t", "c", "tr", "ca", "ed", "sa", "r", "n"⟩]
    "1001").2 ⟨"1001", "e", "d", "s", "i", "t", "c", "tr", "ca", "ed", "sa", "r", "n"⟩).mpr
    ⟨rfl, [], [], rfl, by simp⟩

/-- C7: when no row of the CSV matches the order id, each of the six order
tools of the swarm script returns the plain `Order <id> not found` message
and each of the six MCP-server tools returns the JSON error object, none of
them raising. -/
theorem order_tools_not_found (rows : List OrderRow) (oid : String)
    (h : ∀ row ∈ rows, row.order_id ≠ oid) :
    Mutiagnet.get_order_status (Except.ok rows) oid =
      Except.ok ("Order " ++ oid ++ " not found") ∧
    Mutiagnet.get_tracking_info (Except.ok rows) oid =
      Except.ok ("Order " ++ oid ++ " not found") ∧
    Mutiagnet.get_order_items (Except.ok rows) oid =
      Except.ok ("Order " ++ oid ++ " not found") ∧
    Mutiagnet.check_return_eligibility (Except.ok rows) oid =
      Except.ok ("Order " ++ oid ++ " not found") ∧
    Mutiagnet.get_shipping_address (Except.ok rows) oid =
      Except.ok ("Order " ++ oid ++ " not found") ∧
    Mutiagnet.get_full_order_details (Except.ok rows) oid =
      Except.ok ("Order " ++ oid ++ " not found") ∧
    OrderMcpServer.get_order_status (Except.ok rows) oid =
      Except.ok (OrderMcpServer.notFoundJson oid) ∧
    OrderMcpServer.get_tracking_info (Except.ok rows) oid =
      Except.ok (OrderMcpServer.notFoundJson oid) ∧
    OrderMcpServer.get_order_items (Except.ok rows) oid =
      Except.ok (OrderMcpServer.notFoundJson oid) ∧
    OrderMcpServer.check_return_eligibility (Except.ok rows) oid =
      Except.ok (OrderMcpServer.notFoundJson oid) ∧
    OrderMcpServer.get_full_order_details (Except.ok rows) oid =
      Except.ok (OrderMcpServer.notFoundJson oid) ∧
    OrderMcpServer.get_shipping_address (Except.ok rows) oid =
      Except.ok (OrderMcpServer.notFoundJson oid) := by
  have hf : findRow oid rows = none := (findRow_eq_none_iff oid rows).mpr h
  have hload : load_order_data (Except.ok rows) oid = CsvLookup.notFound := by
    unfold load_order_data
    dsimp only
    rw [hf]
  have hfind : find_order_by_id (Except.ok rows) oid = CsvLookup.notFound := by
    unfold find_order_by_id
    dsimp only
    rw [hf]
  refine ⟨?_, ?_, ?_, ?_, ?_, ?_, ?_, ?_, ?_, ?_, ?_, ?_⟩ <;>
    simp only [Mutiagnet.get_order_status, Mutiagnet.get_tracking_info,
      Mutiagnet.get_order_items, Mutiagnet.check_return_eligibility,
      Mutiagnet.get_shipping_address, Mutiagnet.get_full_order_details,
      OrderMcpServer.get_order_status, OrderMcpServer.get_tracking_info,
      OrderMcpServer.get_order_items, OrderMcpServer.check_return_eligibility,
      OrderMcpServer.get_full_order_details, OrderMcpServer.get_shipping_address,
      hload, hfind]

/-- Witness for `order_tools_not_found` on an empty file. -/
theorem order_tools_not_found_witness :
    Mutiagnet.get_order_status (Except.ok []) "9999" =
      Except.ok ("Order " ++ "9999" ++ " not found") ∧
    OrderMcpServer.get_order_status (Except.ok []) "9999" =
      Except.ok (OrderMcpServer.notFoundJson "9999") := by
  have h := order_tools_not_found [] "9999" (by simp)
  exact ⟨h.1, h.2.2.2.2.2.2.1⟩

end Orders
